import Mathlib

/-!
Verification of the dynamic filter-to-query translation engine of
`exim_backend` (file `exim_backend/api/doctypes/base_handler.py`).

The embedding models, faithfully to the Python source:
  - `normalize_date_value` (date keyword handling, literal format parsing,
    raw pass-through);
  - the condition-compilation loop of `BaseDocTypeHandler.dynamic_search`
    (field alias mapping, operator dispatch, parameter naming, the WHERE
    clause, ORDER BY and LIMIT assembly);
  - `count_documents` (filtered counting through `dynamic_search` with
    limit 10000, the small-count name sampling, the unfiltered exact count).

External collaborators (the frappe framework and the MySQL store) are not
code of this repository; they are modelled by an explicit environment
`Env`: calendar utilities (`getdate`, `formatdate`, `format_datetime`,
`get_first_day_of_week`, `parse_date`) become fields of `Env`, dates are
day numbers and datetimes are second counts since an epoch, and
`frappe.db.sql` becomes filtering of an explicit table by the semantics of
the compiled predicate, truncated by LIMIT.
-/

namespace EximBackend

/-- Value of a bound query parameter (or of a table cell).  The Python code
passes strings, formatted datetimes, formatted dates, raw lists and the
LIMIT integer as bound values; datetime and date strings produced by the
frappe formatters `format_datetime` and `formatdate` are represented by the
underlying instant (seconds since an epoch) and day number respectively,
since those formatters are injective renderings. -/
inductive BVal where
| s : String → BVal
| dtStr : Int → BVal
| dateStr : Int → BVal
| list : List String → BVal
| nat : Nat → BVal
deriving DecidableEq

/-- Operand of one operator inside an operator map: a scalar or a list
(scalars are modelled as their string rendering, matching the `str(value)`
coercion the Python code applies before date handling). -/
inductive OpVal where
| scalar : String → OpVal
| list : List String → OpVal
deriving DecidableEq

/-- A filter value: a bare scalar (equality) or an operator map, an ordered
mapping from operator symbol to operand. -/
inductive FilterValue where
| scalar : String → FilterValue
| opMap : List (String × OpVal) → FilterValue
deriving DecidableEq

/-- A filter specification: an ordered mapping field key to value. -/
abbrev Filters := List (String × FilterValue)

/-- A stored record: an ordered mapping column name to cell value.  A
missing key models SQL NULL. -/
abbrev Row := List (String × BVal)

/-- Environment of external (frappe / store / calendar) collaborators.
`todayDay` is `getdate()` as a day number; `parseDate` models
`frappe.utils.dateutils.parse_date`, with `none` standing for the
exception it raises on unparsable input; `firstDayOfWeek`, `firstOfMonth`
and `monthsAgo` model the corresponding calendar arithmetic;
`formatDatetime` and `formatDate` are the (injective) string renderings
used when a computed instant is bound as a parameter; `table` is the
content of the `tab<doctype>` table read by `frappe.db.sql`. -/
structure Env where
  todayDay : Int
  parseDate : String → Option String
  firstDayOfWeek : Int → Int
  firstOfMonth : Int → Int
  monthsAgo : Int → Int → Int
  hasRelativedelta : Bool
  formatDatetime : Int → String
  formatDate : Int → String
  doctype : String
  table : List Row

/-- Python `str()` of an operand: scalars render as themselves, lists as
the bracketed, quoted, comma-separated rendering `str` gives a list of
strings. -/
def pyStr : OpVal → String
| .scalar v => v
| .list l => "[" ++ String.intercalate ", " (l.map (fun x => "\x27" ++ x ++ "\x27")) ++ "]"

/-- Python truthiness of a raw operand (`if not value`): empty strings and
empty lists are falsy. -/
def pyTruthy : OpVal → Bool
| .scalar v => v ≠ ""
| .list l => l ≠ []

/-- String rendering of a bound value, as the Python runtime would see it
(used where the code takes `len()` of, or iterates over, a value that is a
string). -/
def bvalStr (env : Env) : BVal → String
| .s v => v
| .dtStr t => env.formatDatetime t
| .dateStr d => env.formatDate d
| .list l => pyStr (.list l)
| .nat n => Nat.repr n

/-- Python truthiness of a bound value (`if normalized_value:`).  Formatted
datetime and date strings are never empty, hence truthy. -/
def bvalTruthy : BVal → Bool
| .s v => v ≠ ""
| .dtStr _ => true
| .dateStr _ => true
| .list l => l ≠ []
| .nat n => n ≠ 0

/-- Substring test, Python `pat in s`. -/
def hasSub (pat s : String) : Bool := decide (pat.data <:+: s.data)

/-- Python `str.lower()`: character-wise lowercasing. -/
def pyLower (s : String) : String := String.mk (s.data.map Char.toLower)

/-- Python `str.strip()`: whitespace dropped from both ends. -/
def pyStrip (s : String) : String :=
  String.mk (((s.data.dropWhile Char.isWhitespace).reverse.dropWhile Char.isWhitespace).reverse)

/-- Split a character list at separators satisfying `p`, keeping empty
segments (Python `str.split(sep)`). -/
def splitOnP (p : Char → Bool) : List Char → List (List Char)
  | [] => [[]]
  | c :: rest =>
    if p c then [] :: splitOnP p rest
    else
      match splitOnP p rest with
      | [] => [[c]]
      | t :: ts => (c :: t) :: ts

/-- Numeric value of a decimal digit string. -/
def digitsVal (l : List Char) : Nat := l.foldl (fun a c => a * 10 + (c.toNat - 48)) 0

/-- Python `int(tok)`: optional sign followed by digits. -/
def parsePyInt (s : String) : Option Int :=
  let t := (pyStrip s).data
  let core :=
    match t with
    | '-' :: r => r
    | '+' :: r => r
    | r => r
  let neg :=
    match t with
    | '-' :: _ => true
    | _ => false
  if core ≠ [] && core.all Char.isDigit then
    if neg then some (-(digitsVal core : Int)) else some ((digitsVal core : Int))
  else none

/-- Python `int(value_str.split()[0])`: the first whitespace-separated
token parsed as an integer; `none` models the caught exception. -/
def firstTokenInt (s : String) : Option Int :=
  match (splitOnP Char.isWhitespace s.data).filter (fun t => t ≠ []) with
  | [] => none
  | t :: _ => parsePyInt (String.mk t)

/-- Seconds in one day. -/
def daySecs : Int := 86400

/-- The datetime-classified fields; the source hardcodes the list
`[creation, modified]` at each of its three decision points. -/
def datetime_fields : List String := ["creation", "modified"]

/-! Model of `datetime.strptime` restricted to the six literal formats the
source tries, with calendar-valid dates, then rendering with
`strftime("%Y-%m-%d")`. -/

/-- Split into exactly three fields at a separator character. -/
def split3 (sep : Char) (s : String) : Option (String × String × String) :=
  match (splitOnP (fun c => c = sep) s.data).map String.mk with
  | [a, b, c] => some (a, b, c)
  | _ => none

/-- A numeric field of at most `maxLen` digits. -/
def numField (maxLen : Nat) (s : String) : Option Nat :=
  if s.data ≠ [] && s.data.length ≤ maxLen && s.data.all Char.isDigit then
    some (digitsVal s.data)
  else none

def isLeapYear (y : Nat) : Bool := (y % 4 == 0 && y % 100 != 0) || (y % 400 == 0)

def daysInMonth (y m : Nat) : Nat :=
  if m == 2 then (if isLeapYear y then 29 else 28)
  else if m == 4 || m == 6 || m == 9 || m == 11 then 30
  else 31

def validYMD (y m d : Nat) : Bool :=
  1 ≤ y && y ≤ 9999 && 1 ≤ m && m ≤ 12 && 1 ≤ d && d ≤ daysInMonth y m

/-- Component order of a literal date format. -/
inductive DFormat where
| dmy | ymd | mdy
deriving DecidableEq

/-- One `datetime.strptime` attempt against a three-component format. -/
def tryStrptime (sep : Char) (fmt : DFormat) (s : String) : Option (Nat × Nat × Nat) :=
  match split3 sep s with
  | none => none
  | some (a, b, c) =>
    let ymd? : Option (Nat × Nat × Nat) :=
      match fmt with
      | .dmy =>
        match numField 2 a, numField 2 b, numField 4 c with
        | some d, some m, some y => some (y, m, d)
        | _, _, _ => none
      | .ymd =>
        match numField 4 a, numField 2 b, numField 2 c with
        | some y, some m, some d => some (y, m, d)
        | _, _, _ => none
      | .mdy =>
        match numField 2 a, numField 2 b, numField 4 c with
        | some m, some d, some y => some (y, m, d)
        | _, _, _ => none
    match ymd? with
    | some (y, m, d) => if validYMD y m d then some (y, m, d) else none
    | none => none

/-- Zero-padded decimal rendering of width `w`. -/
def padNum (w : Nat) (n : Nat) : String :=
  String.mk (List.replicate (w - (Nat.repr n).length) '0') ++ Nat.repr n

/-- Rendering with `strftime("%Y-%m-%d")`. -/
def isoOfYMD (y m d : Nat) : String :=
  padNum 4 y ++ "-" ++ padNum 2 m ++ "-" ++ padNum 2 d

/-- The manual parsing fallback of `normalize_date_value`: the formats
`%d-%m-%Y`, `%Y-%m-%d`, `%d/%m/%Y`, `%Y/%m/%d`, `%m-%d-%Y`, `%m/%d/%Y`
tried in order, the first success rendered as `YYYY-MM-DD`. -/
def strptime6 (s : String) : Option String :=
  let attempts : List (Char × DFormat) :=
    [('-', .dmy), ('-', .ymd), ('/', .dmy), ('/', .ymd), ('-', .mdy), ('/', .mdy)]
  ((attempts.filterMap (fun p => tryStrptime p.1 p.2 s)).head?).map
    (fun t => isoOfYMD t.1 t.2.1 t.2.2)

/-- The final parsing section of `normalize_date_value`: frappe
`parse_date` first, then the six manual formats, and on total failure the
lowercased trimmed input is returned unchanged ("might be a datetime
string" per the source comment). -/
def parseFallback (env : Env) (s : String) : Option BVal :=
  match env.parseDate s with
  | some p => some (.s p)
  | none =>
    match strptime6 s with
    | some iso => some (.s iso)
    | none => some (.s s)

/-- Model of `BaseDocTypeHandler.normalize_date_value`.  Empty input gives
`none` (the Python `return None`); otherwise the trimmed lowercased string
is matched against the symbolic keyword vocabulary, and failing that the
literal parse section runs.  For the fields `creation` and `modified` the
keywords `today`, `yesterday`, `tomorrow` and `this week` produce a
formatted start-of-day datetime; elsewhere they produce a formatted date. -/
def normalize_date_value (env : Env) (value : OpVal) (fieldName : String) : Option BVal :=
  if pyTruthy value = false then none
  else
    let s := pyLower (pyStrip (pyStr value))
    let isDt := fieldName ∈ datetime_fields
    if s = "today" then
      if isDt then some (.dtStr (env.todayDay * daySecs)) else some (.dateStr env.todayDay)
    else if s = "yesterday" then
      if isDt then some (.dtStr ((env.todayDay - 1) * daySecs))
      else some (.dateStr (env.todayDay - 1))
    else if s = "tomorrow" then
      if isDt then some (.dtStr ((env.todayDay + 1) * daySecs))
      else some (.dateStr (env.todayDay + 1))
    else if s = "this week" || s = "thisweek" then
      let fd := env.firstDayOfWeek env.todayDay
      if isDt then some (.dtStr (fd * daySecs)) else some (.dateStr fd)
    else if s = "last week" || s = "lastweek" then
      some (.dateStr (env.firstDayOfWeek (env.todayDay - 7)))
    else if hasSub "days ago" s || hasSub "day ago" s then
      match firstTokenInt s with
      | some n => some (.dateStr (env.todayDay - n))
      | none => parseFallback env s
    else if hasSub "weeks ago" s || hasSub "week ago" s then
      match firstTokenInt s with
      | some n => some (.dateStr (env.todayDay - 7 * n))
      | none => parseFallback env s
    else if hasSub "months ago" s || hasSub "month ago" s then
      match firstTokenInt s with
      | some n =>
        if env.hasRelativedelta then some (.dateStr (env.monthsAgo env.todayDay n))
        else some (.dateStr (env.todayDay - 30 * n))
      | none => parseFallback env s
    else if s = "this month" || s = "thismonth" then
      some (.dateStr (env.firstOfMonth env.todayDay))
    else parseFallback env s

/-- The static alias table of `dynamic_search` (`field_mapping` in the
source); unmapped keys pass through unchanged. -/
def field_mapping (f : String) : String :=
  if f = "created" then "creation"
  else if f = "created_date" then "creation"
  else if f = "date" then "transaction_date"
  else if f = "order_date" then "transaction_date"
  else f

/-- One compiled predicate fragment.  Each constructor corresponds to one
of the f-string templates of `dynamic_search` and carries only the column
name and the bound-parameter names interpolated there; bound values never
appear (they go into the separate values mapping). -/
inductive Cond where
| like : String → String → Cond
| isNull : String → Cond
| isNotNull : String → Cond
| geDt : String → String → Cond
| geDate : String → String → Cond
| leDt : String → String → Cond
| leDate : String → String → Cond
| inList : String → List String → Cond
| dtRange : String → String → String → Cond
| eqDate : String → String → Cond
| eqPlain : String → String → Cond
deriving DecidableEq

/-- The fragment text of a compiled condition, exactly the f-string of the
source (with `%(name)s` placeholders). -/
def renderCond : Cond → String
| .like f p => "`" ++ f ++ "` LIKE %(" ++ p ++ ")s"
| .isNull f =>
  "(`" ++ f ++ "` IS NULL OR `" ++ f ++ "` = \x27\x27 OR `" ++ f ++ "` = \x27Not Set\x27)"
| .isNotNull f =>
  "(`" ++ f ++ "` IS NOT NULL AND `" ++ f ++ "` != \x27\x27 AND `" ++ f ++ "` != \x27Not Set\x27)"
| .geDt f p => "`" ++ f ++ "` >= %(" ++ p ++ ")s"
| .geDate f p => "DATE(`" ++ f ++ "`) >= DATE(%(" ++ p ++ ")s)"
| .leDt f p => "`" ++ f ++ "` <= %(" ++ p ++ ")s"
| .leDate f p => "DATE(`" ++ f ++ "`) <= DATE(%(" ++ p ++ ")s)"
| .inList f ps =>
  "`" ++ f ++ "` IN (" ++ String.intercalate ", " (ps.map (fun p => "%(" ++ p ++ ")s")) ++ ")"
| .dtRange f ps pe =>
  "`" ++ f ++ "` >= %(" ++ ps ++ ")s AND `" ++ f ++ "` < %(" ++ pe ++ ")s"
| .eqDate f p => "DATE(`" ++ f ++ "`) = DATE(%(" ++ p ++ ")s)"
| .eqPlain f p => "`" ++ f ++ "` = %(" ++ p ++ ")s"

/-- The placeholder names occurring in a fragment. -/
def condParams : Cond → List String
| .like _ p => [p]
| .isNull _ => []
| .isNotNull _ => []
| .geDt _ p => [p]
| .geDate _ p => [p]
| .leDt _ p => [p]
| .leDate _ p => [p]
| .inList _ ps => ps
| .dtRange _ ps pe => [ps, pe]
| .eqDate _ p => [p]
| .eqPlain _ p => [p]

/-- The column name a fragment is about. -/
def condField : Cond → String
| .like f _ => f
| .isNull f => f
| .isNotNull f => f
| .geDt f _ => f
| .geDate f _ => f
| .leDt f _ => f
| .leDate f _ => f
| .inList f _ => f
| .dtRange f _ _ => f
| .eqDate f _ => f
| .eqPlain f _ => f

/-- Python dict assignment `m[k] = v`: overwrite in place, else append. -/
def dictSet (m : List (String × BVal)) (k : String) (v : BVal) : List (String × BVal) :=
  if m.any (fun p => p.1 = k) then m.map (fun p => if p.1 = k then (k, v) else p)
  else m ++ [(k, v)]

/-- Raw operand as the bound value it would be passed as. -/
def opvB : OpVal → BVal
| .scalar v => .s v
| .list l => .list l

/-- Element list of an `$in` operand: Python `len(op_value)` and
element-wise iteration give list elements for a list, and single characters
for a string (which is what a date-normalized operand is). -/
def inElems (env : Env) : BVal → List BVal
| .list l => l.map .s
| b => (bvalStr env b).data.map (fun c => .s (String.mk [c]))

/-- Operand of one operator after the date-normalization step of the inner
loop: on a date-classified field the operand is normalized and a falsy
result means the filter is silently skipped (`none`); elsewhere the raw
operand is used. -/
def opOperand (env : Env) (dateFields : List String) (f : String) (opv : OpVal) :
    Option BVal :=
  if f ∈ dateFields then
    match normalize_date_value env opv f with
    | some nv => if bvalTruthy nv then some nv else none
    | none => none
  else some (opvB opv)

/-- Compilation of one `operator, op_value` pair of an operator map
(the body of the inner loop of `dynamic_search`): date normalization with
the silent skip on falsy results, then the operator dispatch, which emits
nothing for operator symbols outside the supported set.  Returns the
appended conditions and the parameter bindings in order. -/
def compileOp (env : Env) (dateFields : List String) (f : String) (op : String)
    (opv : OpVal) : List Cond × List (String × BVal) :=
  match opOperand env dateFields f opv with
  | none => ([], [])
  | some ov =>
    let p := f ++ "_" ++ op
    if op = "$like" then ([.like f p], [(p, ov)])
    else if op = "$is_null" then ([.isNull f], [])
    else if op = "$is_not_null" then ([.isNotNull f], [])
    else if op = "$gte" then
      if f ∈ datetime_fields then ([.geDt f p], [(p, ov)])
      else ([.geDate f p], [(p, ov)])
    else if op = "$lte" then
      if f ∈ datetime_fields then ([.leDt f p], [(p, ov)])
      else ([.leDate f p], [(p, ov)])
    else if op = "$in" then
      let elems := inElems env ov
      let ps := (List.range elems.length).map (fun i => f ++ "_" ++ Nat.repr i)
      ([.inList f ps], ps.zip elems)
    else ([], [])

/-- Value bound for a bare (non-dict) filter entry: on date-classified
fields the normalized value when that is truthy, the original otherwise. -/
def scalarValue (env : Env) (dateFields : List String) (f : String) (v : String) : BVal :=
  if f ∈ dateFields then
    match normalize_date_value env (.scalar v) f with
    | some nv => if bvalTruthy nv then nv else .s v
    | none => .s v
  else .s v

/-- Compilation of a bare (non-dict) filter value: date normalization when
the field is date-classified, then the keyword range expansion for
datetime fields, date-truncated equality for date fields, plain equality
otherwise. -/
def compileScalar (env : Env) (dateFields : List String) (f : String) (v : String) :
    List Cond × List (String × BVal) :=
  let value : BVal := scalarValue env dateFields f v
  if f ∈ dateFields then
    if f ∈ datetime_fields then
      let ov := pyLower (pyStrip v)
      if ov = "today" || ov = "yesterday" || ov = "tomorrow" then
        let target : Int :=
          if ov = "today" then env.todayDay
          else if ov = "yesterday" then env.todayDay - 1
          else env.todayDay + 1
        let ts := target * daySecs
        ([.dtRange f (f ++ "_start") (f ++ "_end")],
         [(f ++ "_start", .dtStr ts), (f ++ "_end", .dtStr (ts + daySecs))])
      else ([.eqPlain f f], [(f, value)])
    else ([.eqDate f f], [(f, value)])
  else ([.eqPlain f f], [(f, .s v)])

/-- Compilation of one filter entry: empty scalar values are skipped, the
alias table is applied, then the scalar or operator-map path runs. -/
def compileEntry (env : Env) (dateFields : List String) (e : String × FilterValue) :
    List Cond × List (String × BVal) :=
  let f := field_mapping e.1
  match e.2 with
  | .scalar v => if v = "" then ([], []) else compileScalar env dateFields f v
  | .opMap ops =>
    ops.foldl
      (fun acc o =>
        let r := compileOp env dateFields f o.1 o.2
        (acc.1 ++ r.1, acc.2 ++ r.2))
      ([], [])

/-- The condition list and bound-values dict built by the filter loop of
`dynamic_search`. -/
def buildState (env : Env) (dateFields : List String) (filters : Filters) :
    List Cond × List (String × BVal) :=
  filters.foldl
    (fun acc e =>
      let r := compileEntry env dateFields e
      (acc.1 ++ r.1, r.2.foldl (fun m kv => dictSet m kv.1 kv.2) acc.2))
    ([], [])

/-- The WHERE clause: fragments joined by AND, or the tautology. -/
def whereClauseOf (conds : List Cond) : String :=
  if conds = [] then "1=1" else String.intercalate " AND " (conds.map renderCond)

/-- The assembled statement text (whitespace of the Python triple-quoted
f-string normalized to single spaces).  The caller-supplied `order_by`
string is interpolated verbatim, exactly as in the source. -/
def renderQuery (selectFields doctype whereClause orderBy : String) : String :=
  "SELECT " ++ selectFields ++ " FROM `tab" ++ doctype ++ "` WHERE " ++ whereClause ++
    " ORDER BY " ++ orderBy ++ " LIMIT %(limit)s"

/-- SQL LIKE matching of a pattern (with `%` and `_` wildcards) against a
string, part of the store model. -/
def likeMatch : List Char → List Char → Bool
| [], [] => true
| [], _ :: _ => false
| '%' :: ps, [] => likeMatch ps []
| '%' :: ps, c :: s => likeMatch ps (c :: s) || likeMatch ('%' :: ps) s
| '_' :: ps, _ :: s => likeMatch ps s
| '_' :: _, [] => false
| p :: ps, c :: s => p == c && likeMatch ps s
| _ :: _, [] => false
termination_by p s => (p.length, s.length)

/-- Timestamp (seconds) denoted by a bound value or cell, for temporal
comparisons; a formatted date denotes midnight of that day. -/
def bvalTs : BVal → Option Int
| .dtStr t => some t
| .dateStr d => some (d * daySecs)
| _ => none

/-- Lookup in the bound-values mapping. -/
def lookupV (values : List (String × BVal)) (p : String) : Option BVal :=
  (values.find? (fun q => q.1 = p)).map (fun q => q.2)

/-- Cell of a row; `none` is SQL NULL. -/
def rowGet (r : Row) (f : String) : Option BVal :=
  (r.find? (fun q => q.1 = f)).map (fun q => q.2)

/-- Calendar day of a timestamp: the MySQL `DATE()` truncation. -/
def dateOfTs (t : Int) : Int := t.fdiv daySecs

/-- Store semantics of one compiled condition on one row, with parameters
taken from the bound-values mapping.  Temporal comparisons compare
timestamps; `DATE()`-wrapped comparisons compare the truncated day
numbers; `IS NULL` treats NULL, the empty string and the literal
`Not Set` as unset. -/
def evalCond (env : Env) (values : List (String × BVal)) (r : Row) : Cond → Bool
| .like f p =>
  match rowGet r f, lookupV values p with
  | some cv, some pv => likeMatch (bvalStr env pv).data (bvalStr env cv).data
  | _, _ => false
| .isNull f =>
  match rowGet r f with
  | none => true
  | some cv => cv == .s "" || cv == .s "Not Set"
| .isNotNull f =>
  match rowGet r f with
  | none => false
  | some cv => !(cv == .s "" || cv == .s "Not Set")
| .geDt f p =>
  match (rowGet r f).bind bvalTs, (lookupV values p).bind bvalTs with
  | some a, some b => b ≤ a
  | _, _ => false
| .geDate f p =>
  match (rowGet r f).bind bvalTs, (lookupV values p).bind bvalTs with
  | some a, some b => dateOfTs b ≤ dateOfTs a
  | _, _ => false
| .leDt f p =>
  match (rowGet r f).bind bvalTs, (lookupV values p).bind bvalTs with
  | some a, some b => a ≤ b
  | _, _ => false
| .leDate f p =>
  match (rowGet r f).bind bvalTs, (lookupV values p).bind bvalTs with
  | some a, some b => dateOfTs a ≤ dateOfTs b
  | _, _ => false
| .inList f ps =>
  ps.any (fun p =>
    match rowGet r f, lookupV values p with
    | some cv, some pv => bvalStr env cv == bvalStr env pv
    | _, _ => false)
| .dtRange f ps pe =>
  match (rowGet r f).bind bvalTs, (lookupV values ps).bind bvalTs,
      (lookupV values pe).bind bvalTs with
  | some a, some s, some e => s ≤ a && a < e
  | _, _, _ => false
| .eqDate f p =>
  match (rowGet r f).bind bvalTs, (lookupV values p).bind bvalTs with
  | some a, some b => dateOfTs a == dateOfTs b
  | _, _ => false
| .eqPlain f p =>
  match rowGet r f, lookupV values p with
  | some cv, some pv => bvalStr env cv == bvalStr env pv
  | _, _ => false

/-- Result of `dynamic_search` (the success shape of the returned dict). -/
structure SearchResult where
  status : String
  count : Nat
  results : List Row
  query : String
  filtersApplied : Filters
deriving DecidableEq

/-- Model of `BaseDocTypeHandler.dynamic_search`: build conditions and
values from the filters, assemble the statement (`name, *` projection, the
doctype table, the AND-joined WHERE clause, the interpolated ORDER BY, the
bound LIMIT), and execute it against the store, which returns the matching
rows truncated to the limit.  Row order produced by ORDER BY is not
modelled (it never affects which rows match).  The `query` field records
the executed statement text. -/
def dynamic_search (env : Env) (dateFields : List String) (filters : Filters)
    (limit : Nat) (orderBy : String) : SearchResult :=
  let st := buildState env dateFields filters
  let whereClause := whereClauseOf st.1
  let values := dictSet st.2 "limit" (.nat limit)
  let query := renderQuery "name, *" env.doctype whereClause orderBy
  let results := (env.table.filter (fun r => st.1.all (evalCond env values r))).take limit
  { status := "success", count := results.length, results := results, query := query,
    filtersApplied := filters }

/-- Result of `count_documents` (the success shape of the returned dict). -/
structure CountResult where
  status : String
  totalCount : Nat
  documentNames : Option (List BVal)
  firstResult : Option Row
deriving DecidableEq

/-- Model of `BaseDocTypeHandler.count_documents`: with a non-empty filter
mapping it counts through `dynamic_search` with limit 10000 (default order
`modified desc`), attaching the record names when `0 < count ≤ 5` and the
full first record when there is exactly one result; without filters it
returns the exact table count (`frappe.db.count`). -/
def count_documents (env : Env) (dateFields : List String) (filters : Filters) :
    CountResult :=
  if filters = [] then
    { status := "success", totalCount := env.table.length,
      documentNames := none, firstResult := none }
  else
    let r := dynamic_search env dateFields filters 10000 "modified desc"
    let base : CountResult :=
      { status := "success", totalCount := r.count,
        documentNames := none, firstResult := none }
    if r.count > 0 && r.count ≤ 5 && !(r.results = []) then
      let names := r.results.filterMap (fun row =>
        match rowGet row "name" with
        | some nv => if bvalTruthy nv then some nv else none
        | none => none)
      if names = [] then base
      else
        { base with
          documentNames := some names,
          firstResult := if r.results.length = 1 then r.results.head? else none }
    else base

/-- Test environment used by the concrete (closed) theorems below.  The
external `parse_date` is modelled as failing: on every concrete string
these theorems feed it, the real frappe function raises (none of them is a
date in any format it accepts).  The calendar functions and renderings are
arbitrary but injective. -/
def envC : Env :=
  { todayDay := 20364
    parseDate := fun _ => none
    firstDayOfWeek := fun d => d - 3
    firstOfMonth := fun d => d - 11
    monthsAgo := fun d n => d - 30 * n
    hasRelativedelta := true
    formatDatetime := fun t => "ts:" ++ toString t
    formatDate := fun d => "day:" ++ toString d
    doctype := "Customer"
    table := [[("name", .s "CUST-0001"), ("territory", .s "India")],
              [("name", .s "CUST-0002"), ("territory", .s "Nepal")],
              [("name", .s "CUST-0003"), ("territory", .s "India")]] }

/-- The operator symbols of the supported set (the six `elif` branches of
the operator dispatch). -/
def supported_operators : List String :=
  ["$like", "$is_null", "$is_not_null", "$gte", "$lte", "$in"]

/-- Whether the trimmed lowercased value hits one of the symbolic keyword
branches of `normalize_date_value` (the `N units ago` branches only count
as hits when the leading integer parses; otherwise control falls through to
the literal parse section). -/
def symbolicHit (s : String) : Bool :=
  s == "today" || s == "yesterday" || s == "tomorrow" ||
  s == "this week" || s == "thisweek" || s == "last week" || s == "lastweek" ||
  ((hasSub "days ago" s || hasSub "day ago" s || hasSub "weeks ago" s ||
    hasSub "week ago" s || hasSub "months ago" s || hasSub "month ago" s) &&
    (firstTokenInt s).isSome) ||
  s == "this month" || s == "thismonth"

/-- The rows of the store matching the compiled WHERE clause of a search,
before the LIMIT truncation (the true matching set). -/
def searchMatches (env : Env) (dateFields : List String) (filters : Filters)
    (limit : Nat) : List Row :=
  let st := buildState env dateFields filters
  let values := dictSet st.2 "limit" (.nat limit)
  env.table.filter (fun r => st.1.all (evalCond env values r))

/-- Decimal digit string of a natural number (reference characterization
of `Nat.repr`, used to reason about the `$in` parameter names the source
builds with an f-string over the element index). -/
def decChars (n : Nat) : List Char :=
  if h : n < 10 then [Nat.digitChar n]
  else decChars (n / 10) ++ [Nat.digitChar (n % 10)]
decreasing_by exact Nat.div_lt_self (by omega) (by omega)

/-- Placeholder names of all conditions of a compiled plan, in order. -/
def allParams (conds : List Cond) : List String := (conds.map condParams).flatten

/-- Parameter names generated for one field extend the field name (they
are the field name itself, or the field name followed by an underscore and
a suffix). -/
def isParamOf (f p : String) : Prop := ∃ x, p = f ++ x

/-- The values-dict fold used by `buildState`. -/
def dfold (vs : List (String × BVal)) (m : List (String × BVal)) : List (String × BVal) :=
  vs.foldl (fun m kv => dictSet m kv.1 kv.2) m

/-- The parameter names one operator contributes (placeholders of its
conditions). -/
def opParams (env : Env) (df : List String) (f op : String) (opv : OpVal) : List String :=
  ((compileOp env df f op opv).1.map condParams).flatten

/-- The parameter names one filter entry contributes. -/
def entryParams (env : Env) (df : List String) (e : String × FilterValue) : List String :=
  ((compileEntry env df e).1.map condParams).flatten

/-- Boolean check that an operator map carries pairwise distinct operator
symbols (automatic for a Python dict). -/
def entryOpsNodup (e : String × FilterValue) : Bool :=
  match e.2 with
  | .opMap ops => decide ((ops.map Prod.fst).Nodup)
  | .scalar _ => true

/-! Facts about `Nat.repr` via `decChars`. -/

theorem decChars_lt {n : Nat} (h : n < 10) : decChars n = [Nat.digitChar n] := by
  rw [decChars]
  simp [h]

theorem decChars_ge {n : Nat} (h : ¬ n < 10) :
    decChars n = decChars (n / 10) ++ [Nat.digitChar (n % 10)] := by
  rw [decChars]
  simp [h]

theorem decChars_ne_nil (n : Nat) : decChars n ≠ [] := by
  by_cases h : n < 10
  · rw [decChars_lt h]
    simp
  · rw [decChars_ge h]
    simp

theorem digitChar_inj : ∀ a < 10, ∀ b < 10, Nat.digitChar a = Nat.digitChar b → a = b := by
  decide

theorem digitChar_isDigit : ∀ a < 10, (Nat.digitChar a).isDigit = true := by
  decide

theorem decChars_all_digits (n : Nat) : ∀ c ∈ decChars n, c.isDigit = true := by
  induction n using Nat.strong_induction_on with
  | _ n ih =>
    by_cases h : n < 10
    · rw [decChars_lt h]
      intro c hc
      simp only [List.mem_singleton] at hc
      subst hc
      exact digitChar_isDigit n h
    · rw [decChars_ge h]
      intro c hc
      rcases List.mem_append.mp hc with hc | hc
      · exact ih (n / 10) (Nat.div_lt_self (by omega) (by omega)) c hc
      · simp only [List.mem_singleton] at hc
        subst hc
        exact digitChar_isDigit (n % 10) (Nat.mod_lt _ (by omega))

theorem decChars_inj : ∀ m n : Nat, decChars m = decChars n → m = n := by
  intro m
  induction m using Nat.strong_induction_on with
  | _ m ih =>
    intro n hmn
    by_cases hm : m < 10 <;> by_cases hn : n < 10
    · rw [decChars_lt hm, decChars_lt hn] at hmn
      exact digitChar_inj m hm n hn (List.singleton_injective hmn)
    · rw [decChars_lt hm, decChars_ge hn] at hmn
      have := congrArg List.length hmn
      simp only [List.length_singleton, List.length_append] at this
      have h1 : 1 ≤ (decChars (n / 10)).length :=
        List.length_pos.mpr (decChars_ne_nil _)
      omega
    · rw [decChars_ge hm, decChars_lt hn] at hmn
      have := congrArg List.length hmn
      simp only [List.length_singleton, List.length_append] at this
      have h1 : 1 ≤ (decChars (m / 10)).length :=
        List.length_pos.mpr (decChars_ne_nil _)
      omega
    · rw [decChars_ge hm, decChars_ge hn] at hmn
      have hlen : [Nat.digitChar (m % 10)].length = [Nat.digitChar (n % 10)].length := by simp
      obtain ⟨h1, h2⟩ := List.append_inj' hmn hlen
      have hdiv : m / 10 = n / 10 :=
        ih (m / 10) (Nat.div_lt_self (by omega) (by omega)) (n / 10) h1
      have hmod : m % 10 = n % 10 :=
        digitChar_inj (m % 10) (Nat.mod_lt _ (by omega)) (n % 10) (Nat.mod_lt _ (by omega))
          (List.singleton_injective h2)
      omega

theorem toDigitsCore_eq_decChars :
    ∀ f n ds, n < 10 ^ f → 0 < f → Nat.toDigitsCore 10 f n ds = decChars n ++ ds := by
  intro f
  induction f with
  | zero => omega
  | succ f ih =>
    intro n ds hlt _
    by_cases h0 : n / 10 = 0
    · have hn : n < 10 := by omega
      rw [Nat.toDigitsCore]
      simp only [h0, if_true]
      rw [decChars_lt hn, Nat.mod_eq_of_lt hn]
      simp
    · have hn : ¬ n < 10 := by
        intro hc
        exact h0 (Nat.div_eq_of_lt hc)
      rw [Nat.toDigitsCore]
      simp only [h0, if_false]
      have hdivlt : n / 10 < 10 ^ f := by
        rw [Nat.div_lt_iff_lt_mul (by omega)]
        calc n < 10 ^ (f + 1) := hlt
        _ = 10 ^ f * 10 := by ring
      have hfpos : 0 < f := by
        by_contra hf
        have : f = 0 := by omega
        subst this
        simp at hdivlt
        omega
      rw [ih (n / 10) (Nat.digitChar (n % 10) :: ds) hdivlt hfpos]
      rw [decChars_ge hn]
      simp

theorem repr_data (n : Nat) : (Nat.repr n).data = decChars n := by
  show (List.asString (Nat.toDigits 10 n)).data = decChars n
  have h1 : Nat.toDigits 10 n = Nat.toDigitsCore 10 (n + 1) n [] := rfl
  have h2 : n < 10 ^ (n + 1) :=
    lt_of_lt_of_le (Nat.lt_pow_self (by omega) n) (Nat.pow_le_pow_right (by omega) (by omega))
  have := toDigitsCore_eq_decChars (n + 1) n [] h2 (by omega)
  rw [h1, this]
  simp [List.asString]

theorem nat_repr_inj : ∀ m n : Nat, Nat.repr m = Nat.repr n → m = n := by
  intro m n h
  apply decChars_inj
  rw [← repr_data, ← repr_data, h]

theorem nat_repr_digits (n : Nat) : ∀ c ∈ (Nat.repr n).data, c.isDigit = true := by
  rw [repr_data]
  exact decChars_all_digits n

/-! String-level facts about parameter names. -/

theorem str_append_right_inj {f a b : String} (h : f ++ a = f ++ b) : a = b := by
  have hd : f.data ++ a.data = f.data ++ b.data := by
    rw [← String.data_append, ← String.data_append, h]
  exact String.ext (List.append_cancel_left hd)

theorem param_disjoint {f g : String}
    (hfg : ¬ f.data <+: g.data) (hgf : ¬ g.data <+: f.data)
    {p q : String} (hp : isParamOf f p) (hq : isParamOf g q) : p ≠ q := by
  obtain ⟨x, rfl⟩ := hp
  obtain ⟨y, rfl⟩ := hq
  intro h
  have hd : f.data ++ x.data = g.data ++ y.data := by
    rw [← String.data_append, ← String.data_append, h]
  have h1 : f.data <+: f.data ++ x.data := List.prefix_append _ _
  have h2 : g.data <+: f.data ++ x.data := by
    rw [hd]
    exact List.prefix_append _ _
  rcases List.prefix_or_prefix_of_prefix h1 h2 with h | h
  · exact hfg h
  · exact hgf h

theorem isParamOf_self (f : String) : isParamOf f f := ⟨"", by simp⟩

theorem isParamOf_ext (f s : String) : isParamOf f (f ++ "_" ++ s) :=
  ⟨"_" ++ s, (String.append_assoc f "_" s)⟩

/-! Facts about the Python-dict model `dictSet`. -/

theorem keys_dictSet_of_mem {m : List (String × BVal)} {k : String} {v : BVal}
    (h : m.any (fun p => p.1 = k) = true) :
    (dictSet m k v).map Prod.fst = m.map Prod.fst := by
  unfold dictSet
  rw [if_pos h]
  rw [List.map_map]
  apply List.map_congr_left
  intro p _
  by_cases hp : p.1 = k
  · simp [hp]
  · simp [hp]

theorem mem_keys_dictSet {m : List (String × BVal)} {k k' : String} {v : BVal} :
    k' ∈ (dictSet m k v).map Prod.fst ↔ k' ∈ m.map Prod.fst ∨ k' = k := by
  by_cases h : m.any (fun p => p.1 = k) = true
  · rw [keys_dictSet_of_mem h]
    constructor
    · exact Or.inl
    · rintro (hk | rfl)
      · exact hk
      · obtain ⟨p, hpm, hpk⟩ := List.any_eq_true.mp h
        simp only [decide_eq_true_eq] at hpk
        exact hpk ▸ List.mem_map_of_mem Prod.fst hpm
  · unfold dictSet
    rw [if_neg h]
    simp [List.mem_append]

theorem nodup_keys_dictSet {m : List (String × BVal)} {k : String} {v : BVal}
    (h : (m.map Prod.fst).Nodup) : ((dictSet m k v).map Prod.fst).Nodup := by
  by_cases hm : m.any (fun p => p.1 = k) = true
  · rw [keys_dictSet_of_mem hm]
    exact h
  · unfold dictSet
    rw [if_neg hm]
    rw [List.map_append]
    rw [List.nodup_append]
    refine ⟨h, by simp, ?_⟩
    intro a ham hak
    simp only [List.map_cons, List.map_nil, List.mem_singleton] at hak
    subst hak
    have := List.any_eq_false.mp (Bool.eq_false_iff.mpr (fun hc => hm hc))
    obtain ⟨p, hpm, hpk⟩ := List.mem_map.mp ham
    exact this p hpm (by simp [hpk])

theorem mem_keys_dfold {vs : List (String × BVal)} :
    ∀ {m k'}, k' ∈ (dfold vs m).map Prod.fst ↔
      k' ∈ m.map Prod.fst ∨ k' ∈ vs.map Prod.fst := by
  induction vs with
  | nil => simp [dfold]
  | cons kv vs ih =>
    intro m k'
    show k' ∈ (dfold vs (dictSet m kv.1 kv.2)).map Prod.fst ↔ _
    rw [ih, mem_keys_dictSet]
    simp only [List.map_cons, List.mem_cons]
    tauto

theorem nodup_keys_dfold {vs : List (String × BVal)} :
    ∀ {m}, (m.map Prod.fst).Nodup → ((dfold vs m).map Prod.fst).Nodup := by
  induction vs with
  | nil => exact fun h => h
  | cons kv vs ih =>
    intro m hm
    exact ih (nodup_keys_dictSet hm)

/-! Characterization of `buildState` as per-entry compilation. -/

theorem buildState_foldl_aux (env : Env) (df : List String) :
    ∀ (filters : Filters) (acc : List Cond × List (String × BVal)),
      filters.foldl
        (fun acc e =>
          let r := compileEntry env df e
          (acc.1 ++ r.1, r.2.foldl (fun m kv => dictSet m kv.1 kv.2) acc.2))
        acc =
      (acc.1 ++ (filters.map (fun e => (compileEntry env df e).1)).flatten,
       dfold ((filters.map (fun e => (compileEntry env df e).2)).flatten) acc.2) := by
  intro filters
  induction filters with
  | nil => intro acc; simp [dfold]
  | cons e filters ih =>
    intro acc
    rw [List.foldl_cons, ih]
    simp only [List.map_cons, List.flatten_cons, Prod.mk.injEq]
    refine ⟨List.append_assoc _ _ _, ?_⟩
    simp only [dfold]
    rw [List.foldl_append]

theorem buildState_conds (env : Env) (df : List String) (filters : Filters) :
    (buildState env df filters).1 =
      (filters.map (fun e => (compileEntry env df e).1)).flatten := by
  unfold buildState
  rw [buildState_foldl_aux]
  simp

theorem buildState_values (env : Env) (df : List String) (filters : Filters) :
    (buildState env df filters).2 =
      dfold ((filters.map (fun e => (compileEntry env df e).2)).flatten) [] := by
  unfold buildState
  rw [buildState_foldl_aux]

/-! Placeholders of each compiled fragment coincide with the keys bound for
it. -/

theorem compileOp_params_eq_keys (env : Env) (df : List String) (f op : String)
    (opv : OpVal) :
    ((compileOp env df f op opv).1.map condParams).flatten =
      (compileOp env df f op opv).2.map Prod.fst := by
  unfold compileOp
  cases opOperand env df f opv with
  | none => rfl
  | some ov =>
    simp only []
    split_ifs <;> simp [condParams]
    rw [List.map_fst_zip]
    simp

theorem compileScalar_params_eq_keys (env : Env) (df : List String) (f v : String) :
    ((compileScalar env df f v).1.map condParams).flatten =
      (compileScalar env df f v).2.map Prod.fst := by
  simp only [compileScalar]
  split_ifs <;> simp [condParams]

theorem compileEntry_opMap_foldl_aux (env : Env) (df : List String) (f : String) :
    ∀ (ops : List (String × OpVal)) (acc : List Cond × List (String × BVal)),
      ops.foldl
        (fun acc o =>
          (acc.1 ++ (compileOp env df f o.1 o.2).1, acc.2 ++ (compileOp env df f o.1 o.2).2))
        acc =
      (acc.1 ++ (ops.map (fun o => (compileOp env df f o.1 o.2).1)).flatten,
       acc.2 ++ (ops.map (fun o => (compileOp env df f o.1 o.2).2)).flatten) := by
  intro ops
  induction ops with
  | nil => intro acc; simp
  | cons o ops ih =>
    intro acc
    rw [List.foldl_cons, ih]
    simp only [List.map_cons, List.flatten_cons]
    rw [List.append_assoc, List.append_assoc]

theorem compileOpList_params_eq_keys (env : Env) (df : List String) (f : String) :
    ∀ ops : List (String × OpVal),
      (((ops.map (fun o => (compileOp env df f o.1 o.2).1)).flatten).map condParams).flatten =
        ((ops.map (fun o => (compileOp env df f o.1 o.2).2)).flatten).map Prod.fst := by
  intro ops
  induction ops with
  | nil => rfl
  | cons o ops ih =>
    simp only [List.map_cons, List.flatten_cons, List.map_append]
    rw [List.flatten_append, ih, compileOp_params_eq_keys]

theorem compileEntry_params_eq_keys (env : Env) (df : List String)
    (e : String × FilterValue) :
    ((compileEntry env df e).1.map condParams).flatten =
      (compileEntry env df e).2.map Prod.fst := by
  obtain ⟨k, val⟩ := e
  cases val with
  | scalar v =>
    by_cases hv : v = ""
    · simp [compileEntry, hv]
    · simp only [compileEntry, hv, if_false]
      exact compileScalar_params_eq_keys env df (field_mapping k) v
  | opMap ops =>
    show ((ops.foldl
        (fun acc o =>
          (acc.1 ++ (compileOp env df (field_mapping k) o.1 o.2).1,
           acc.2 ++ (compileOp env df (field_mapping k) o.1 o.2).2))
        ([], [])).1.map condParams).flatten =
      (ops.foldl
        (fun acc o =>
          (acc.1 ++ (compileOp env df (field_mapping k) o.1 o.2).1,
           acc.2 ++ (compileOp env df (field_mapping k) o.1 o.2).2))
        ([], [])).2.map Prod.fst
    rw [compileEntry_opMap_foldl_aux]
    simp only [List.nil_append]
    exact compileOpList_params_eq_keys env df (field_mapping k) ops

/-- Claim C2.  For every filter specification (valid or not), the assembled
statement is the rendering of the structured conditions, whose constructors
carry only column and placeholder names and no bound values; every
placeholder name occurring in any compiled condition is a key of the
bound-values mapping passed alongside the statement; and that mapping has
pairwise distinct keys, so each placeholder has exactly one corresponding
entry.  Literal filter values therefore reach the store only through the
values mapping, never through the fragment text. -/
theorem c2_values_only_as_placeholders (env : Env) (df : List String)
    (filters : Filters) (limit : Nat) (orderBy : String) :
    (((dictSet (buildState env df filters).2 "limit" (.nat limit)).map Prod.fst).Nodup ∧
      ∀ c ∈ (buildState env df filters).1, ∀ p ∈ condParams c,
        p ∈ (dictSet (buildState env df filters).2 "limit" (.nat limit)).map Prod.fst) ∧
    (dynamic_search env df filters limit orderBy).query =
      renderQuery "name, *" env.doctype (whereClauseOf (buildState env df filters).1) orderBy := by
  refine ⟨⟨?_, ?_⟩, rfl⟩
  · apply nodup_keys_dictSet
    rw [buildState_values]
    exact nodup_keys_dfold (by simp)
  · intro c hc p hp
    rw [mem_keys_dictSet]
    left
    rw [buildState_values, mem_keys_dfold]
    right
    rw [buildState_conds] at hc
    rw [List.mem_flatten] at hc
    obtain ⟨cs, hcs, hcmem⟩ := hc
    rw [List.mem_map] at hcs
    obtain ⟨e, hef, rfl⟩ := hcs
    have hpk : p ∈ (compileEntry env df e).2.map Prod.fst := by
      rw [← compileEntry_params_eq_keys]
      rw [List.mem_flatten]
      exact ⟨condParams c, List.mem_map_of_mem condParams hcmem, hp⟩
    rw [List.mem_map] at hpk ⊢
    obtain ⟨kv, hkv, rfl⟩ := hpk
    refine ⟨kv, ?_, rfl⟩
    rw [List.mem_flatten]
    exact ⟨(compileEntry env df e).2, List.mem_map_of_mem _ hef, hkv⟩

/-! Shape of the parameter names generated per operator, and their
distinctness. -/

theorem compileOp_forms (env : Env) (df : List String) (f op : String) (opv : OpVal) :
    opParams env df f op opv = [] ∨
    (opParams env df f op opv = [f ++ "_" ++ op] ∧
      op ∈ (["$like", "$gte", "$lte"] : List String)) ∨
    (op = "$in" ∧ ∃ n, opParams env df f op opv =
      (List.range n).map (fun i => f ++ "_" ++ Nat.repr i)) := by
  unfold opParams compileOp
  cases opOperand env df f opv with
  | none => exact Or.inl rfl
  | some ov =>
    simp only []
    by_cases h1 : op = "$like"
    · rw [if_pos h1]
      exact Or.inr (Or.inl ⟨by simp [condParams], by simp [h1]⟩)
    rw [if_neg h1]
    by_cases h2 : op = "$is_null"
    · rw [if_pos h2]
      exact Or.inl (by simp [condParams])
    rw [if_neg h2]
    by_cases h3 : op = "$is_not_null"
    · rw [if_pos h3]
      exact Or.inl (by simp [condParams])
    rw [if_neg h3]
    by_cases h4 : op = "$gte"
    · rw [if_pos h4]
      by_cases hdt : f ∈ datetime_fields
      · rw [if_pos hdt]
        exact Or.inr (Or.inl ⟨by simp [condParams], by simp [h4]⟩)
      · rw [if_neg hdt]
        exact Or.inr (Or.inl ⟨by simp [condParams], by simp [h4]⟩)
    rw [if_neg h4]
    by_cases h5 : op = "$lte"
    · rw [if_pos h5]
      by_cases hdt : f ∈ datetime_fields
      · rw [if_pos hdt]
        exact Or.inr (Or.inl ⟨by simp [condParams], by simp [h5]⟩)
      · rw [if_neg hdt]
        exact Or.inr (Or.inl ⟨by simp [condParams], by simp [h5]⟩)
    rw [if_neg h5]
    by_cases h6 : op = "$in"
    · rw [if_pos h6]
      refine Or.inr (Or.inr ⟨h6, (inElems env ov).length, ?_⟩)
      simp [condParams]
    · rw [if_neg h6]
      exact Or.inl rfl

theorem opParams_isParamOf (env : Env) (df : List String) (f op : String) (opv : OpVal) :
    ∀ p ∈ opParams env df f op opv, isParamOf f p := by
  rcases compileOp_forms env df f op opv with h | ⟨h, _⟩ | ⟨_, n, h⟩ <;> rw [h]
  · simp
  · intro p hp
    rw [List.mem_singleton] at hp
    exact hp ▸ isParamOf_ext f op
  · intro p hp
    rw [List.mem_map] at hp
    obtain ⟨i, _, rfl⟩ := hp
    exact isParamOf_ext f (Nat.repr i)

theorem inRange_params_inj (f : String) :
    Function.Injective (fun i : Nat => f ++ "_" ++ Nat.repr i) := by
  intro i j h
  exact nat_repr_inj i j (str_append_right_inj h)

theorem inRange_params_nodup (f : String) (n : Nat) :
    ((List.range n).map (fun i => f ++ "_" ++ Nat.repr i)).Nodup :=
  (List.nodup_range n).map (inRange_params_inj f)

theorem nat_repr_not_dollar_op (i : Nat) :
    Nat.repr i ∉ (["$like", "$gte", "$lte"] : List String) := by
  intro h
  have hdig := nat_repr_digits i
  simp only [List.mem_cons, List.not_mem_nil, or_false] at h
  rcases h with h | h | h <;> rw [h] at hdig <;>
    exact absurd (hdig '$' (by decide)) (by decide)

theorem opParams_nodup (env : Env) (df : List String) (f op : String) (opv : OpVal) :
    (opParams env df f op opv).Nodup := by
  rcases compileOp_forms env df f op opv with h | ⟨h, _⟩ | ⟨_, n, h⟩ <;> rw [h]
  · exact List.nodup_nil
  · simp
  · exact inRange_params_nodup f n

theorem opParams_disjoint (env : Env) (df : List String) (f : String)
    {op₁ op₂ : String} (hne : op₁ ≠ op₂) (opv₁ opv₂ : OpVal) :
    List.Disjoint (opParams env df f op₁ opv₁) (opParams env df f op₂ opv₂) := by
  rcases compileOp_forms env df f op₁ opv₁ with h1 | ⟨h1, hm1⟩ | ⟨hop1, n1, h1⟩ <;>
    rcases compileOp_forms env df f op₂ opv₂ with h2 | ⟨h2, hm2⟩ | ⟨hop2, n2, h2⟩ <;>
      rw [h1, h2] <;> intro p hp1 hp2
  all_goals try exact List.not_mem_nil p hp1
  all_goals try exact List.not_mem_nil p hp2
  · rw [List.mem_singleton] at hp1 hp2
    exact hne (str_append_right_inj (hp1.symm.trans hp2))
  · rw [List.mem_singleton] at hp1
    rw [List.mem_map] at hp2
    obtain ⟨i, _, hi⟩ := hp2
    have hrep : Nat.repr i = op₁ := str_append_right_inj (hi.trans hp1)
    exact nat_repr_not_dollar_op i (by rw [hrep]; exact hm1)
  · rw [List.mem_singleton] at hp2
    rw [List.mem_map] at hp1
    obtain ⟨i, _, hi⟩ := hp1
    have hrep : Nat.repr i = op₂ := str_append_right_inj (hi.trans hp2)
    exact nat_repr_not_dollar_op i (by rw [hrep]; exact hm2)
  · exact hne (hop1.trans hop2.symm)

/-- Commutation of flatten with a mapped flatten, used to regroup the
parameter names per entry and per operator. -/
theorem flatten_map_flatten {α β γ : Type} (g : α → List β) (h : β → List γ) :
    ∀ l : List α,
      (((l.map g).flatten).map h).flatten = (l.map (fun a => ((g a).map h).flatten)).flatten := by
  intro l
  induction l with
  | nil => rfl
  | cons a l ih =>
    simp only [List.map_cons, List.flatten_cons, List.map_append, List.flatten_append]
    rw [ih]

theorem entryParams_opMap (env : Env) (df : List String) (k : String)
    (ops : List (String × OpVal)) :
    entryParams env df (k, .opMap ops) =
      (ops.map (fun o => opParams env df (field_mapping k) o.1 o.2)).flatten := by
  unfold entryParams
  have : (compileEntry env df (k, .opMap ops)).1 =
      (ops.map (fun o => (compileOp env df (field_mapping k) o.1 o.2).1)).flatten := by
    show (ops.foldl
        (fun acc o =>
          (acc.1 ++ (compileOp env df (field_mapping k) o.1 o.2).1,
           acc.2 ++ (compileOp env df (field_mapping k) o.1 o.2).2))
        ([], [])).1 = _
    rw [compileEntry_opMap_foldl_aux]
    simp
  rw [this, flatten_map_flatten]
  rfl

theorem compileScalar_params_forms (env : Env) (df : List String) (f v : String) :
    ((compileScalar env df f v).1.map condParams).flatten = [f ++ "_start", f ++ "_end"] ∨
    ((compileScalar env df f v).1.map condParams).flatten = [f] := by
  simp only [compileScalar]
  split_ifs <;> simp [condParams]

theorem entryParams_scalar_forms (env : Env) (df : List String) (k v : String) :
    entryParams env df (k, .scalar v) = [] ∨
    entryParams env df (k, .scalar v) =
      [field_mapping k ++ "_start", field_mapping k ++ "_end"] ∨
    entryParams env df (k, .scalar v) = [field_mapping k] := by
  unfold entryParams
  by_cases hv : v = ""
  · left
    simp [compileEntry, hv]
  · simp only [compileEntry, hv, if_false]
    rcases compileScalar_params_forms env df (field_mapping k) v with h | h
    · exact Or.inr (Or.inl h)
    · exact Or.inr (Or.inr h)

theorem entryParams_nodup (env : Env) (df : List String) (e : String × FilterValue)
    (hops : ∀ ops, e.2 = .opMap ops → (ops.map Prod.fst).Nodup) :
    (entryParams env df e).Nodup := by
  obtain ⟨k, val⟩ := e
  cases val with
  | scalar v =>
    rcases entryParams_scalar_forms env df k v with h | h | h <;> rw [h]
    · exact List.nodup_nil
    · simp only [List.nodup_cons, List.mem_singleton, List.not_mem_nil, not_false_iff,
        List.nodup_nil, and_true]
      intro hc
      have := str_append_right_inj hc
      simp at this
    · simp
  | opMap ops =>
    rw [entryParams_opMap]
    rw [List.nodup_flatten]
    constructor
    · intro l hl
      rw [List.mem_map] at hl
      obtain ⟨o, _, rfl⟩ := hl
      exact opParams_nodup env df (field_mapping k) o.1 o.2
    · rw [List.pairwise_map]
      have hnd : (ops.map Prod.fst).Nodup := hops ops rfl
      have hnd' : ops.Pairwise (fun a b => a.1 ≠ b.1) := List.pairwise_map.mp hnd
      exact hnd'.imp (fun hab => opParams_disjoint env df (field_mapping k) hab _ _)

theorem entryParams_isParamOf (env : Env) (df : List String) (e : String × FilterValue) :
    ∀ p ∈ entryParams env df e, isParamOf (field_mapping e.1) p := by
  obtain ⟨k, val⟩ := e
  cases val with
  | scalar v =>
    rcases entryParams_scalar_forms env df k v with h | h | h <;> rw [h] <;> intro p hp
    · exact absurd hp (List.not_mem_nil p)
    · rcases List.mem_cons.mp hp with hp | hp
      · exact hp ▸ ⟨"_start", rfl⟩
      · rw [List.mem_singleton] at hp
        exact hp ▸ ⟨"_end", rfl⟩
    · rw [List.mem_singleton] at hp
      exact hp ▸ isParamOf_self _
  | opMap ops =>
    rw [entryParams_opMap]
    intro p hp
    rw [List.mem_flatten] at hp
    obtain ⟨l, hl, hpl⟩ := hp
    rw [List.mem_map] at hl
    obtain ⟨o, _, rfl⟩ := hl
    exact opParams_isParamOf env df (field_mapping k) o.1 o.2 p hpl

theorem buildState_params_regroup (env : Env) (df : List String) (filters : Filters) :
    ((buildState env df filters).1.map condParams).flatten =
      (filters.map (fun e => entryParams env df e)).flatten := by
  rw [buildState_conds, flatten_map_flatten]
  rfl

theorem compileOp_in_list (env : Env) (df : List String) (f : String) (l : List String)
    (hdf : f ∉ df) :
    compileOp env df f "$in" (.list l) =
      ([.inList f ((List.range l.length).map (fun i => f ++ "_" ++ Nat.repr i))],
       ((List.range l.length).map (fun i => f ++ "_" ++ Nat.repr i)).zip (l.map .s)) := by
  have hop : opOperand env df f (.list l) = some (.list l) := by
    unfold opOperand
    rw [if_neg hdf]
    rfl
  unfold compileOp
  rw [hop]
  simp only []
  rw [if_neg (by decide : ¬ ("$in" : String) = "$like"),
    if_neg (by decide : ¬ ("$in" : String) = "$is_null"),
    if_neg (by decide : ¬ ("$in" : String) = "$is_not_null"),
    if_neg (by decide : ¬ ("$in" : String) = "$gte"),
    if_neg (by decide : ¬ ("$in" : String) = "$lte")]
  simp [inElems]

theorem compileOp_unsupported (env : Env) (df : List String) (f op : String)
    (opv : OpVal) (h : op ∉ supported_operators) :
    compileOp env df f op opv = ([], []) := by
  unfold compileOp
  cases opOperand env df f opv with
  | none => rfl
  | some ov =>
    simp only []
    rw [if_neg (fun hc : op = "$like" => h (by rw [hc]; decide)),
      if_neg (fun hc : op = "$is_null" => h (by rw [hc]; decide)),
      if_neg (fun hc : op = "$is_not_null" => h (by rw [hc]; decide)),
      if_neg (fun hc : op = "$gte" => h (by rw [hc]; decide)),
      if_neg (fun hc : op = "$lte" => h (by rw [hc]; decide)),
      if_neg (fun hc : op = "$in" => h (by rw [hc]; decide))]

theorem opsFold_filter_eq (env : Env) (df : List String) (f : String) :
    ∀ (ops : List (String × OpVal)) (acc : List Cond × List (String × BVal)),
      ops.foldl
        (fun acc o =>
          (acc.1 ++ (compileOp env df f o.1 o.2).1, acc.2 ++ (compileOp env df f o.1 o.2).2))
        acc =
      (ops.filter (fun o => decide (o.1 ∈ supported_operators))).foldl
        (fun acc o =>
          (acc.1 ++ (compileOp env df f o.1 o.2).1, acc.2 ++ (compileOp env df f o.1 o.2).2))
        acc := by
  intro ops
  induction ops with
  | nil => intro acc; rfl
  | cons o rest ih =>
    intro acc
    by_cases hs : o.1 ∈ supported_operators
    · rw [List.filter_cons_of_pos (by simpa using hs), List.foldl_cons, List.foldl_cons]
      exact ih _
    · rw [List.filter_cons_of_neg (by simpa using hs), List.foldl_cons,
        compileOp_unsupported env df f o.1 o.2 hs]
      simp only [List.append_nil]
      exact ih acc

/-- Claim C5 (amended).  An operator symbol outside the supported set is
silently ignored: the entry compiles exactly as if the unknown operators
were absent from the operator map (no condition, no parameters from them),
and `dynamic_search` always reports success, never an UnknownOperator
error. -/
theorem c5_unknown_operator_ignored :
    (∀ (env : Env) (df : List String) (f : String) (ops : List (String × OpVal)),
      compileEntry env df (f, .opMap ops) =
        compileEntry env df
          (f, .opMap (ops.filter (fun o => decide (o.1 ∈ supported_operators))))) ∧
    (∀ (env : Env) (df : List String) (filters : Filters) (limit : Nat) (orderBy : String),
      (dynamic_search env df filters limit orderBy).status = "success") := by
  constructor
  · intro env df f ops
    show (ops.foldl
        (fun acc o =>
          (acc.1 ++ (compileOp env df (field_mapping f) o.1 o.2).1,
           acc.2 ++ (compileOp env df (field_mapping f) o.1 o.2).2))
        ([], [])) =
      ((ops.filter (fun o => decide (o.1 ∈ supported_operators))).foldl
        (fun acc o =>
          (acc.1 ++ (compileOp env df (field_mapping f) o.1 o.2).1,
           acc.2 ++ (compileOp env df (field_mapping f) o.1 o.2).2))
        ([], []))
    exact opsFold_filter_eq env df (field_mapping f) ops ([], [])
  · intro env df filters limit orderBy
    rfl

/-- Claim C5 counterexample.  Compiling the filter
`status: ($unknown: x)` raises no error: the search succeeds, the
condition list is empty, the statement degenerates to `WHERE 1=1` and every
record of the store is returned — the unknown operator was silently
dropped, not rejected with an UnknownOperator error as the claim states. -/
theorem c5_unknown_operator_counterexample :
    (dynamic_search envC ["creation", "modified"]
        [("status", .opMap [("$unknown", .scalar "x")])] 20 "modified desc").status =
      "success" ∧
    (buildState envC ["creation", "modified"]
        [("status", .opMap [("$unknown", .scalar "x")])]).1 = [] ∧
    (dynamic_search envC ["creation", "modified"]
        [("status", .opMap [("$unknown", .scalar "x")])] 20 "modified desc").count = 3 ∧
    (dynamic_search envC ["creation", "modified"]
        [("status", .opMap [("$unknown", .scalar "x")])] 20 "modified desc").query =
      "SELECT name, * FROM `tabCustomer` WHERE 1=1 ORDER BY modified desc LIMIT %(limit)s" := by
  decide

/-- Claim C1 (code behavior at the failing input).  A filter key that
resolves through neither the alias table nor any schema is passed through
unchanged: it is interpolated into the WHERE clause as a raw backtick-quoted
column reference, the statement is assembled and executed, and the search
reports success — no UnknownField error exists in this code path. -/
theorem c1_unknown_field_passthrough :
    (buildState envC ["creation", "modified"]
        [("frobnicate_xyz", .scalar "some value")]).1 =
      [.eqPlain "frobnicate_xyz" "frobnicate_xyz"] ∧
    whereClauseOf (buildState envC ["creation", "modified"]
        [("frobnicate_xyz", .scalar "some value")]).1 =
      "`frobnicate_xyz` = %(frobnicate_xyz)s" ∧
    (dynamic_search envC ["creation", "modified"]
        [("frobnicate_xyz", .scalar "some value")] 20 "modified desc").status = "success" ∧
    (dynamic_search envC ["creation", "modified"]
        [("frobnicate_xyz", .scalar "some value")] 20 "modified desc").query =
      "SELECT name, * FROM `tabCustomer` WHERE `frobnicate_xyz` = %(frobnicate_xyz)s ORDER BY modified desc LIMIT %(limit)s" := by
  decide

/-- Claim C7 (code behavior at the failing input).  The caller-supplied
orderBy string is interpolated into the statement verbatim with no
validation against any column set or direction whitelist: even an orderBy
naming no known column and carrying a trailing injected statement appears
unchanged in the executed query text, and the search reports success — no
InvalidOrderBy error exists anywhere in the code. -/
theorem c7_orderby_unvalidated :
    (dynamic_search envC ["creation", "modified"] [] 20
        "no_such_column ASCENDING; DROP TABLE `tabCustomer`").status = "success" ∧
    (dynamic_search envC ["creation", "modified"] [] 20
        "no_such_column ASCENDING; DROP TABLE `tabCustomer`").query =
      "SELECT name, * FROM `tabCustomer` WHERE 1=1 ORDER BY no_such_column ASCENDING; DROP TABLE `tabCustomer` LIMIT %(limit)s" ∧
    hasSub "ORDER BY no_such_column ASCENDING; DROP TABLE `tabCustomer`"
      (dynamic_search envC ["creation", "modified"] [] 20
        "no_such_column ASCENDING; DROP TABLE `tabCustomer`").query = true := by
  decide

/-- Claim C8 (amended).  For an `$in` condition on a field that is not
date-classified, compilation produces exactly one parameter per list
element, named `field_0 … field_(N-1)`, pairwise distinct.  Across
conditions, all parameter names of a plan are pairwise distinct provided
no two (alias-mapped) filter keys are prefix-related and each operator map
has distinct operator symbols; without the prefix side condition names can
collide (see the counterexample), the later binding overwriting the
earlier one. -/
theorem c8_in_unique_params :
    (∀ (env : Env) (df : List String) (field : String) (l : List String),
      field_mapping field ∉ df →
      (compileEntry env df (field, .opMap [("$in", .list l)])).1 =
        [.inList (field_mapping field)
          ((List.range l.length).map (fun i => field_mapping field ++ "_" ++ Nat.repr i))] ∧
      ((List.range l.length).map
          (fun i => field_mapping field ++ "_" ++ Nat.repr i)).length = l.length ∧
      ((List.range l.length).map
          (fun i => field_mapping field ++ "_" ++ Nat.repr i)).Nodup) ∧
    (∀ (env : Env) (df : List String) (filters : Filters),
      (filters.map (fun e => field_mapping e.1)).Pairwise
        (fun a b => ¬ a.data <+: b.data ∧ ¬ b.data <+: a.data) →
      (∀ e ∈ filters, entryOpsNodup e = true) →
      (((buildState env df filters).1.map condParams).flatten).Nodup) := by
  constructor
  · intro env df field l hdf
    refine ⟨?_, by simp, inRange_params_nodup _ _⟩
    show (([("$in", OpVal.list l)] : List (String × OpVal)).foldl
        (fun acc o =>
          (acc.1 ++ (compileOp env df (field_mapping field) o.1 o.2).1,
           acc.2 ++ (compileOp env df (field_mapping field) o.1 o.2).2))
        ([], [])).1 = _
    rw [List.foldl_cons, List.foldl_nil, compileOp_in_list env df (field_mapping field) l hdf]
    simp
  · intro env df filters hpw hops
    rw [buildState_params_regroup]
    rw [List.nodup_flatten]
    constructor
    · intro l hl
      rw [List.mem_map] at hl
      obtain ⟨e, hef, rfl⟩ := hl
      apply entryParams_nodup
      intro ops hop
      obtain ⟨k, val⟩ := e
      simp only at hop
      subst hop
      exact of_decide_eq_true (hops (k, .opMap ops) hef)
    · rw [List.pairwise_map]
      have hpw' := List.pairwise_map.mp hpw
      refine hpw'.imp ?_
      intro e₁ e₂ hne p hp1 hp2
      exact param_disjoint hne.1 hne.2
        (entryParams_isParamOf env df e₁ p hp1)
        (entryParams_isParamOf env df e₂ p hp2) rfl

/-- Claim C8 counterexample.  With the filters
`a: ($in: [x, y])` and `a_1: z` (a field key equal to another key with an
index suffix), the `$in` condition and the equality condition both use the
parameter name `a_1`; the collision makes the later assignment overwrite
the earlier: the bound values carry `a_1 = z`, so the second `$in`
placeholder no longer binds `y`.  The claim that no parameter name ever
collides across conditions is therefore false. -/
theorem c8_param_collision_counterexample :
    (buildState envC ["creation", "modified"]
        [("a", .opMap [("$in", .list ["x", "y"])]), ("a_1", .scalar "z")]).1 =
      [.inList "a" ["a_0", "a_1"], .eqPlain "a_1" "a_1"] ∧
    "a_1" ∈ condParams (Cond.inList "a" ["a_0", "a_1"]) ∧
    "a_1" ∈ condParams (Cond.eqPlain "a_1" "a_1") ∧
    lookupV (buildState envC ["creation", "modified"]
        [("a", .opMap [("$in", .list ["x", "y"])]), ("a_1", .scalar "z")]).2 "a_1" =
      some (.s "z") := by
  decide

/-- Witness for the C8 theorem at concrete inputs. -/
theorem c8_in_unique_params_witness :
    (compileEntry envC ["creation", "modified"]
        ("items", .opMap [("$in", .list ["a", "b", "c"])])).1 =
      [.inList "items" ["items_0", "items_1", "items_2"]] ∧
    (((buildState envC ["creation", "modified"]
        [("territory", .scalar "India"),
         ("status", .opMap [("$gte", .scalar "5"), ("$lte", .scalar "9")])]).1.map
          condParams).flatten).Nodup := by
  constructor
  · have h := (c8_in_unique_params.1 envC ["creation", "modified"] "items"
      ["a", "b", "c"] (by decide)).1
    rw [h]
    decide
  · apply c8_in_unique_params.2 envC ["creation", "modified"]
    · decide
    · decide

/-- Claim C3.  A single-value equality filter on a datetime-classified
field whose value is one of the keywords today, yesterday or tomorrow
compiles to exactly one half-open range condition
(`field >= %(f_start)s AND field < %(f_end)s`) with exactly two bound
parameters: the start of the target day (a midnight instant, inclusive)
and the start of the next day (exclusive), the upper bound exceeding the
lower by exactly 24 hours; no point-equality condition is produced. -/
theorem c3_datetime_keyword_range (env : Env) (df : List String) (field v : String)
    (hdf : field_mapping field ∈ df) (hdt : field_mapping field ∈ datetime_fields)
    (hkw : pyLower (pyStrip v) = "today" ∨ pyLower (pyStrip v) = "yesterday" ∨
      pyLower (pyStrip v) = "tomorrow") :
    ∃ t : Int,
      buildState env df [(field, .scalar v)] =
        ([.dtRange (field_mapping field) (field_mapping field ++ "_start")
            (field_mapping field ++ "_end")],
         [(field_mapping field ++ "_start", .dtStr t),
          (field_mapping field ++ "_end", .dtStr (t + daySecs))]) ∧
      t % daySecs = 0 ∧
      t = (if pyLower (pyStrip v) = "today" then env.todayDay
           else if pyLower (pyStrip v) = "yesterday" then env.todayDay - 1
           else env.todayDay + 1) * daySecs ∧
      (t + daySecs) - t = 24 * 60 * 60 ∧
      renderCond (.dtRange (field_mapping field) (field_mapping field ++ "_start")
          (field_mapping field ++ "_end")) =
        "`" ++ field_mapping field ++ "` >= %(" ++ (field_mapping field ++ "_start") ++
          ")s AND `" ++ field_mapping field ++ "` < %(" ++ (field_mapping field ++ "_end") ++
          ")s" := by
  have hv : v ≠ "" := by
    intro h
    subst h
    rcases hkw with h | h | h <;> exact absurd h (by decide)
  have hb : (decide (pyLower (pyStrip v) = "today") || decide (pyLower (pyStrip v) = "yesterday") ||
      decide (pyLower (pyStrip v) = "tomorrow")) = true := by
    rcases hkw with h | h | h <;> simp [h]
  have hne : field_mapping field ++ "_start" ≠ field_mapping field ++ "_end" := by
    intro h
    have := str_append_right_inj h
    simp at this
  refine ⟨(if pyLower (pyStrip v) = "today" then env.todayDay
      else if pyLower (pyStrip v) = "yesterday" then env.todayDay - 1
      else env.todayDay + 1) * daySecs, ?_, Int.mul_emod_left _ _, rfl,
    by simp only [daySecs]; omega, rfl⟩
  simp only [buildState, List.foldl_cons, List.foldl_nil, compileEntry, if_neg hv]
  simp only [compileScalar, if_pos hdf, if_pos hdt, hb, if_true]
  simp only [List.nil_append, List.foldl_cons, List.foldl_nil]
  simp [dictSet, hne]

/-- Witness for the C3 theorem: the alias `created` maps to the datetime
field `creation`, and the value `Today` (keyword matching is
case-insensitive) compiles to the half-open day range. -/
theorem c3_datetime_keyword_range_witness :
    ∃ t : Int,
      buildState envC ["creation", "modified"] [("created", .scalar "Today")] =
        ([.dtRange (field_mapping "created") (field_mapping "created" ++ "_start")
            (field_mapping "created" ++ "_end")],
         [(field_mapping "created" ++ "_start", .dtStr t),
          (field_mapping "created" ++ "_end", .dtStr (t + daySecs))]) ∧
      t % daySecs = 0 ∧
      t = (if pyLower (pyStrip "Today") = "today" then envC.todayDay
           else if pyLower (pyStrip "Today") = "yesterday" then envC.todayDay - 1
           else envC.todayDay + 1) * daySecs ∧
      (t + daySecs) - t = 24 * 60 * 60 ∧
      renderCond (.dtRange (field_mapping "created") (field_mapping "created" ++ "_start")
          (field_mapping "created" ++ "_end")) =
        "`" ++ field_mapping "created" ++ "` >= %(" ++ (field_mapping "created" ++ "_start") ++
          ")s AND `" ++ field_mapping "created" ++ "` < %(" ++
          (field_mapping "created" ++ "_end") ++ ")s" :=
  c3_datetime_keyword_range envC ["creation", "modified"] "created" "Today"
    (by decide) (by decide) (Or.inl (by decide))

theorem compileOp_gte (env : Env) (df : List String) (f : String) (opv : OpVal)
    (nv : BVal) (hdf : f ∈ df) (hn : normalize_date_value env opv f = some nv)
    (ht : bvalTruthy nv = true) :
    compileOp env df f "$gte" opv =
      (if f ∈ datetime_fields then ([.geDt f (f ++ "_$gte")], [(f ++ "_$gte", nv)])
       else ([.geDate f (f ++ "_$gte")], [(f ++ "_$gte", nv)])) := by
  have hop : opOperand env df f opv = some nv := by
    unfold opOperand
    rw [if_pos hdf, hn]
    show (if bvalTruthy nv = true then some nv else none) = some nv
    rw [if_pos ht]
  unfold compileOp
  rw [hop]
  simp only []
  rw [if_neg (by decide : ¬ ("$gte" : String) = "$like"),
    if_neg (by decide : ¬ ("$gte" : String) = "$is_null"),
    if_neg (by decide : ¬ ("$gte" : String) = "$is_not_null")]
  simp only [if_pos, reduceIte]
  rw [show f ++ "_" ++ "$gte" = f ++ "_$gte" from by rw [String.append_assoc]; rfl]

theorem compileOp_lte (env : Env) (df : List String) (f : String) (opv : OpVal)
    (nv : BVal) (hdf : f ∈ df) (hn : normalize_date_value env opv f = some nv)
    (ht : bvalTruthy nv = true) :
    compileOp env df f "$lte" opv =
      (if f ∈ datetime_fields then ([.leDt f (f ++ "_$lte")], [(f ++ "_$lte", nv)])
       else ([.leDate f (f ++ "_$lte")], [(f ++ "_$lte", nv)])) := by
  have hop : opOperand env df f opv = some nv := by
    unfold opOperand
    rw [if_pos hdf, hn]
    show (if bvalTruthy nv = true then some nv else none) = some nv
    rw [if_pos ht]
  unfold compileOp
  rw [hop]
  simp only []
  rw [if_neg (by decide : ¬ ("$lte" : String) = "$like"),
    if_neg (by decide : ¬ ("$lte" : String) = "$is_null"),
    if_neg (by decide : ¬ ("$lte" : String) = "$is_not_null"),
    if_neg (by decide : ¬ ("$lte" : String) = "$gte")]
  simp only [if_pos, reduceIte]
  rw [show f ++ "_" ++ "$lte" = f ++ "_$lte" from by rw [String.append_assoc]; rfl]

theorem compileEntry_single_op (env : Env) (df : List String) (field op : String)
    (opv : OpVal) :
    compileEntry env df (field, .opMap [(op, opv)]) =
      compileOp env df (field_mapping field) op opv := by
  show (([(op, opv)] : List (String × OpVal)).foldl
      (fun acc o =>
        (acc.1 ++ (compileOp env df (field_mapping field) o.1 o.2).1,
         acc.2 ++ (compileOp env df (field_mapping field) o.1 o.2).2))
      ([], [])) = _
  rw [List.foldl_cons, List.foldl_nil]
  simp

theorem buildState_single (env : Env) (df : List String) (e : String × FilterValue) :
    buildState env df [e] =
      ((compileEntry env df e).1, dfold (compileEntry env df e).2 []) := by
  show ((([] : List Cond) ++ (compileEntry env df e).1,
    (compileEntry env df e).2.foldl (fun m kv => dictSet m kv.1 kv.2) [])) = _
  rw [List.nil_append]
  rfl

theorem evalCond_geDt_eval (env : Env) (f p : String) (rt t : Int) :
    evalCond env [(p, .dtStr t)] [(f, .dtStr rt)] (.geDt f p) = decide (t ≤ rt) := by
  simp [evalCond, rowGet, lookupV, bvalTs]

theorem evalCond_leDt_eval (env : Env) (f p : String) (rt t : Int) :
    evalCond env [(p, .dtStr t)] [(f, .dtStr rt)] (.leDt f p) = decide (rt ≤ t) := by
  simp [evalCond, rowGet, lookupV, bvalTs]

theorem evalCond_geDate_eval (env : Env) (f p : String) (rt t : Int) :
    evalCond env [(p, .dtStr t)] [(f, .dtStr rt)] (.geDate f p) =
      decide (dateOfTs t ≤ dateOfTs rt) := by
  simp [evalCond, rowGet, lookupV, bvalTs]

theorem evalCond_leDate_eval (env : Env) (f p : String) (rt t : Int) :
    evalCond env [(p, .dtStr t)] [(f, .dtStr rt)] (.leDate f p) =
      decide (dateOfTs rt ≤ dateOfTs t) := by
  simp [evalCond, rowGet, lookupV, bvalTs]

/-- Claim C4.  A `$gte` (mirror: `$lte`) condition on a datetime-classified
field compiles to a direct full-timestamp comparison
(`field >= %(p)s`, no truncation), whose store semantics preserves sub-day
precision of the bound; on a date-classified (dateOnly) field it compiles
with both sides wrapped in date truncation
(`DATE(field) >= DATE(%(p)s)`), whose store semantics is invariant under
any change of the time-of-day component of the bound parameter. -/
theorem c4_gte_lte_date_semantics :
    (∀ (env : Env) (df : List String) (field : String) (opv : OpVal) (nv : BVal),
      field_mapping field ∈ df → field_mapping field ∈ datetime_fields →
      normalize_date_value env opv (field_mapping field) = some nv →
      bvalTruthy nv = true →
      buildState env df [(field, .opMap [("$gte", opv)])] =
        ([.geDt (field_mapping field) (field_mapping field ++ "_$gte")],
         [(field_mapping field ++ "_$gte", nv)]) ∧
      renderCond (.geDt (field_mapping field) (field_mapping field ++ "_$gte")) =
        "`" ++ field_mapping field ++ "` >= %(" ++ (field_mapping field ++ "_$gte") ++ ")s") ∧
    (∀ (env : Env) (df : List String) (field : String) (opv : OpVal) (nv : BVal),
      field_mapping field ∈ df → field_mapping field ∉ datetime_fields →
      normalize_date_value env opv (field_mapping field) = some nv →
      bvalTruthy nv = true →
      buildState env df [(field, .opMap [("$gte", opv)])] =
        ([.geDate (field_mapping field) (field_mapping field ++ "_$gte")],
         [(field_mapping field ++ "_$gte", nv)]) ∧
      renderCond (.geDate (field_mapping field) (field_mapping field ++ "_$gte")) =
        "DATE(`" ++ field_mapping field ++ "`) >= DATE(%(" ++
          (field_mapping field ++ "_$gte") ++ ")s)") ∧
    (∀ (env : Env) (df : List String) (field : String) (opv : OpVal) (nv : BVal),
      field_mapping field ∈ df → field_mapping field ∈ datetime_fields →
      normalize_date_value env opv (field_mapping field) = some nv →
      bvalTruthy nv = true →
      buildState env df [(field, .opMap [("$lte", opv)])] =
        ([.leDt (field_mapping field) (field_mapping field ++ "_$lte")],
         [(field_mapping field ++ "_$lte", nv)])) ∧
    (∀ (env : Env) (df : List String) (field : String) (opv : OpVal) (nv : BVal),
      field_mapping field ∈ df → field_mapping field ∉ datetime_fields →
      normalize_date_value env opv (field_mapping field) = some nv →
      bvalTruthy nv = true →
      buildState env df [(field, .opMap [("$lte", opv)])] =
        ([.leDate (field_mapping field) (field_mapping field ++ "_$lte")],
         [(field_mapping field ++ "_$lte", nv)]) ∧
      renderCond (.leDate (field_mapping field) (field_mapping field ++ "_$lte")) =
        "DATE(`" ++ field_mapping field ++ "`) <= DATE(%(" ++
          (field_mapping field ++ "_$lte") ++ ")s)") ∧
    (∀ (env : Env) (f p : String) (rt t : Int),
      evalCond env [(p, .dtStr t)] [(f, .dtStr rt)] (.geDt f p) = decide (t ≤ rt) ∧
      evalCond env [(p, .dtStr t)] [(f, .dtStr rt)] (.leDt f p) = decide (rt ≤ t)) ∧
    (∀ (env : Env) (f p : String) (rt t₁ t₂ : Int), dateOfTs t₁ = dateOfTs t₂ →
      evalCond env [(p, .dtStr t₁)] [(f, .dtStr rt)] (.geDate f p) =
        evalCond env [(p, .dtStr t₂)] [(f, .dtStr rt)] (.geDate f p) ∧
      evalCond env [(p, .dtStr t₁)] [(f, .dtStr rt)] (.leDate f p) =
        evalCond env [(p, .dtStr t₂)] [(f, .dtStr rt)] (.leDate f p)) := by
  refine ⟨?_, ?_, ?_, ?_, ?_, ?_⟩
  · intro env df field opv nv hdf hdt hn ht
    rw [buildState_single, compileEntry_single_op,
      compileOp_gte env df (field_mapping field) opv nv hdf hn ht, if_pos hdt]
    exact ⟨by simp [dfold, dictSet], rfl⟩
  · intro env df field opv nv hdf hdt hn ht
    rw [buildState_single, compileEntry_single_op,
      compileOp_gte env df (field_mapping field) opv nv hdf hn ht, if_neg hdt]
    exact ⟨by simp [dfold, dictSet], rfl⟩
  · intro env df field opv nv hdf hdt hn ht
    rw [buildState_single, compileEntry_single_op,
      compileOp_lte env df (field_mapping field) opv nv hdf hn ht, if_pos hdt]
    simp [dfold, dictSet]
  · intro env df field opv nv hdf hdt hn ht
    rw [buildState_single, compileEntry_single_op,
      compileOp_lte env df (field_mapping field) opv nv hdf hn ht, if_neg hdt]
    exact ⟨by simp [dfold, dictSet], rfl⟩
  · intro env f p rt t
    exact ⟨evalCond_geDt_eval env f p rt t, evalCond_leDt_eval env f p rt t⟩
  · intro env f p rt t₁ t₂ hday
    rw [evalCond_geDate_eval, evalCond_geDate_eval, evalCond_leDate_eval,
      evalCond_leDate_eval, hday]
    exact ⟨rfl, rfl⟩

/-- Witness for the C4 theorem at concrete inputs: `$gte`/`$lte` on the
datetime field `creation` and on the dateOnly field `transaction_date`,
with the literal date `01-08-2025`, plus the evaluation facts at concrete
timestamps (the bounds 10:00:00 versus 23:59:59 of the same day). -/
theorem c4_gte_lte_date_semantics_witness :
    buildState envC ["creation", "modified", "transaction_date"]
        [("creation", .opMap [("$gte", .scalar "01-08-2025")])] =
      ([.geDt (field_mapping "creation") (field_mapping "creation" ++ "_$gte")],
       [(field_mapping "creation" ++ "_$gte", .s "2025-08-01")]) ∧
    buildState envC ["creation", "modified", "transaction_date"]
        [("transaction_date", .opMap [("$lte", .scalar "01-08-2025")])] =
      ([.leDate (field_mapping "transaction_date")
          (field_mapping "transaction_date" ++ "_$lte")],
       [(field_mapping "transaction_date" ++ "_$lte", .s "2025-08-01")]) ∧
    evalCond envC [("d_$gte", .dtStr (20300 * 86400 + 36000))]
        [("d", .dtStr (20300 * 86400 + 40000))] (.geDt "d" "d_$gte") = true ∧
    evalCond envC [("d_$gte", .dtStr (20300 * 86400 + 86399))]
        [("d", .dtStr (20300 * 86400 + 40000))] (.geDt "d" "d_$gte") = false ∧
    evalCond envC [("d_$gte", .dtStr (20300 * 86400 + 36000))]
        [("d", .dtStr (20300 * 86400 + 40000))] (.geDate "d" "d_$gte") =
      evalCond envC [("d_$gte", .dtStr (20300 * 86400 + 86399))]
        [("d", .dtStr (20300 * 86400 + 40000))] (.geDate "d" "d_$gte") := by
  refine ⟨?_, ?_, by decide, by decide, ?_⟩
  · exact (c4_gte_lte_date_semantics.1 envC ["creation", "modified", "transaction_date"]
      "creation" (.scalar "01-08-2025") (.s "2025-08-01") (by decide) (by decide)
      (by decide) (by decide)).1
  · exact (c4_gte_lte_date_semantics.2.2.2.1 envC
      ["creation", "modified", "transaction_date"] "transaction_date"
      (.scalar "01-08-2025") (.s "2025-08-01") (by decide) (by decide)
      (by decide) (by decide)).1
  · exact (c4_gte_lte_date_semantics.2.2.2.2.2 envC "d" "d_$gte"
      (20300 * 86400 + 40000) (20300 * 86400 + 36000) (20300 * 86400 + 86399)
      (by decide)).1

/-- Claim C6 (amended).  A nonempty value for a date-classified field that
matches no symbolic keyword (and no `N units ago` form with a parsable
count), is rejected by the external date parser, and matches none of the
six literal formats, is returned by normalization as the trimmed
lowercased raw string, unchanged — a silent pass-through, not an
UnparsableDate error; normalization has no error outcome at all. -/
theorem c6_unparsable_passthrough (env : Env) (v f : String) (hv : v ≠ "")
    (hs : symbolicHit (pyLower (pyStrip v)) = false)
    (hp : env.parseDate (pyLower (pyStrip v)) = none)
    (hf : strptime6 (pyLower (pyStrip v)) = none) :
    normalize_date_value env (.scalar v) f = some (.s (pyLower (pyStrip v))) := by
  have htr : pyTruthy (.scalar v) = true := by simp [pyTruthy, hv]
  have h1 : ¬ pyLower (pyStrip v) = "today" := fun h => absurd hs (by simp [symbolicHit, h])
  have h2 : ¬ pyLower (pyStrip v) = "yesterday" := fun h =>
    absurd hs (by simp [symbolicHit, h])
  have h3 : ¬ pyLower (pyStrip v) = "tomorrow" := fun h =>
    absurd hs (by simp [symbolicHit, h])
  have h4 : ¬ pyLower (pyStrip v) = "this week" := fun h =>
    absurd hs (by simp [symbolicHit, h])
  have h5 : ¬ pyLower (pyStrip v) = "thisweek" := fun h =>
    absurd hs (by simp [symbolicHit, h])
  have h6 : ¬ pyLower (pyStrip v) = "last week" := fun h =>
    absurd hs (by simp [symbolicHit, h])
  have h7 : ¬ pyLower (pyStrip v) = "lastweek" := fun h =>
    absurd hs (by simp [symbolicHit, h])
  have h8 : ¬ pyLower (pyStrip v) = "this month" := fun h =>
    absurd hs (by simp [symbolicHit, h])
  have h9 : ¬ pyLower (pyStrip v) = "thismonth" := fun h =>
    absurd hs (by simp [symbolicHit, h])
  have htok : ∀ pat1 pat2 : String,
      (hasSub pat1 (pyLower (pyStrip v)) || hasSub pat2 (pyLower (pyStrip v))) = true →
      pat1 ∈ (["days ago", "weeks ago", "months ago"] : List String) →
      pat2 ∈ (["day ago", "week ago", "month ago"] : List String) →
      firstTokenInt (pyLower (pyStrip v)) = none := by
    intro pat1 pat2 hsub hm1 hm2
    cases hft : firstTokenInt (pyLower (pyStrip v)) with
    | none => rfl
    | some n =>
      exfalso
      apply absurd hs
      rcases Bool.or_eq_true_iff.mp hsub with h | h <;>
        fin_cases hm1 <;> fin_cases hm2 <;> simp [symbolicHit, h, hft]
  have hpf : parseFallback env (pyLower (pyStrip v)) =
      some (.s (pyLower (pyStrip v))) := by
    unfold parseFallback
    rw [hp, hf]
  unfold normalize_date_value
  rw [if_neg (by simp [htr])]
  simp only [pyStr]
  rw [if_neg h1, if_neg h2, if_neg h3,
    if_neg (by simp [h4, h5] :
      ¬ ((decide (pyLower (pyStrip v) = "this week") ||
          decide (pyLower (pyStrip v) = "thisweek")) = true)),
    if_neg (by simp [h6, h7] :
      ¬ ((decide (pyLower (pyStrip v) = "last week") ||
          decide (pyLower (pyStrip v) = "lastweek")) = true))]
  by_cases hc1 : (hasSub "days ago" (pyLower (pyStrip v)) ||
      hasSub "day ago" (pyLower (pyStrip v))) = true
  · rw [if_pos hc1, htok "days ago" "day ago" hc1 (by decide) (by decide)]
    exact hpf
  · rw [if_neg hc1]
    by_cases hc2 : (hasSub "weeks ago" (pyLower (pyStrip v)) ||
        hasSub "week ago" (pyLower (pyStrip v))) = true
    · rw [if_pos hc2, htok "weeks ago" "week ago" hc2 (by decide) (by decide)]
      exact hpf
    · rw [if_neg hc2]
      by_cases hc3 : (hasSub "months ago" (pyLower (pyStrip v)) ||
          hasSub "month ago" (pyLower (pyStrip v))) = true
      · rw [if_pos hc3, htok "months ago" "month ago" hc3 (by decide) (by decide)]
        exact hpf
      · rw [if_neg hc3,
          if_neg (by simp [h8, h9] :
            ¬ ((decide (pyLower (pyStrip v) = "this month") ||
                decide (pyLower (pyStrip v) = "thismonth")) = true))]
        exact hpf

/-- Claim C6 counterexample.  The values `not-a-real-date` and
`99-99-9999` match no keyword and no accepted literal format (the latter
fails calendar validation in every format), yet normalization returns them
unchanged as ordinary values — no UnparsableDate error is ever produced,
contradicting the claim. -/
theorem c6_unparsable_passthrough_counterexample :
    normalize_date_value envC (.scalar "not-a-real-date") "transaction_date" =
      some (.s "not-a-real-date") ∧
    normalize_date_value envC (.scalar "99-99-9999") "transaction_date" =
      some (.s "99-99-9999") := by
  decide

/-- Witness for the C6 theorem at a concrete input. -/
theorem c6_unparsable_passthrough_witness :
    normalize_date_value envC (.scalar "zzz unknown") "transaction_date" =
      some (.s (pyLower (pyStrip "zzz unknown"))) :=
  c6_unparsable_passthrough envC "zzz unknown" "transaction_date"
    (by decide) (by decide) rfl (by decide)

theorem filterMap_length_all_some {α β : Type} (g : α → Option β) :
    ∀ l : List α, (∀ a ∈ l, (g a).isSome) → (l.filterMap g).length = l.length := by
  intro l
  induction l with
  | nil => intro _; rfl
  | cons a l ih =>
    intro h
    rw [List.filterMap_cons]
    cases hg : g a with
    | none =>
      have := h a (List.mem_cons_self a l)
      rw [hg] at this
      simp at this
    | some b =>
      simp only [List.length_cons]
      rw [ih (fun x hx => h x (List.mem_cons_of_mem a hx))]

theorem dynamic_search_results_sub (env : Env) (df : List String) (filters : Filters)
    (limit : Nat) (orderBy : String) :
    ∀ r ∈ (dynamic_search env df filters limit orderBy).results, r ∈ env.table := by
  intro r hr
  have hr' : r ∈ (env.table.filter
      (fun row => (buildState env df filters).1.all
        (evalCond env (dictSet (buildState env df filters).2 "limit" (.nat limit)) row))).take
      limit := hr
  exact (List.mem_filter.mp (List.mem_of_mem_take hr')).1

/-- Claim C10.  With a non-empty filter mapping, the reported total count
is the row count of the search executed with limit 10000, i.e. the number
of truly matching rows capped at 10000 (`min`): it equals the true count
exactly when that count is at most 10000.  Without filters, the exact
table count is returned. -/
theorem c10_filtered_count_capped :
    (∀ (env : Env) (df : List String) (filters : Filters), filters ≠ [] →
      (count_documents env df filters).totalCount =
        (dynamic_search env df filters 10000 "modified desc").count ∧
      (count_documents env df filters).totalCount =
        min 10000 (searchMatches env df filters 10000).length) ∧
    (∀ (env : Env) (df : List String),
      (count_documents env df ([] : Filters)).totalCount = env.table.length) := by
  constructor
  · intro env df filters hfil
    have htot : (count_documents env df filters).totalCount =
        (dynamic_search env df filters 10000 "modified desc").count := by
      unfold count_documents
      rw [if_neg hfil]
      simp only []
      split_ifs <;> rfl
    refine ⟨htot, htot.trans ?_⟩
    show ((env.table.filter _).take 10000).length = _
    rw [List.length_take]
    rfl
  · intro env df
    rfl

/-- Witness for the C10 theorem at a concrete input: the test table holds
three rows, two of which match `territory = India`, so the filtered count
is `min 10000 2 = 2` while the unfiltered count is 3. -/
theorem c10_filtered_count_capped_witness :
    (count_documents envC ["creation", "modified"]
        [("territory", .scalar "India")]).totalCount =
      min 10000 (searchMatches envC ["creation", "modified"]
        [("territory", .scalar "India")] 10000).length ∧
    (count_documents envC ["creation", "modified"]
        [("territory", .scalar "India")]).totalCount = 2 ∧
    (count_documents envC ["creation", "modified"] ([] : Filters)).totalCount = 3 := by
  refine ⟨(c10_filtered_count_capped.1 envC ["creation", "modified"]
    [("territory", .scalar "India")] (by decide)).2, by decide, ?_⟩
  rw [c10_filtered_count_capped.2 envC ["creation", "modified"]]
  rfl

/-- Claim C9.  For a filtered count over records that carry (as in this
store) a non-empty name: when `0 < count ≤ 5` the response carries the
names of all matching records (one per row, in order) and carries the full
first record exactly when the count is 1; when the count is 0 or exceeds
5, neither names nor a first record are attached — only the total count. -/
theorem c9_small_count_names (env : Env) (df : List String) (filters : Filters)
    (hfil : filters ≠ [])
    (hname : ∀ r ∈ env.table, ∃ s, rowGet r "name" = some (.s s) ∧ s ≠ "") :
    (count_documents env df filters).totalCount =
      (dynamic_search env df filters 10000 "modified desc").count ∧
    (0 < (count_documents env df filters).totalCount →
      (count_documents env df filters).totalCount ≤ 5 →
      ∃ names,
        (count_documents env df filters).documentNames = some names ∧
        names.length = (count_documents env df filters).totalCount ∧
        names = (dynamic_search env df filters 10000 "modified desc").results.filterMap
          (fun row =>
            match rowGet row "name" with
            | some nv => if bvalTruthy nv = true then some nv else none
            | none => none) ∧
        ((count_documents env df filters).firstResult.isSome = true ↔
          (count_documents env df filters).totalCount = 1) ∧
        ((count_documents env df filters).totalCount = 1 →
          (count_documents env df filters).firstResult =
            (dynamic_search env df filters 10000 "modified desc").results.head?)) ∧
    ((count_documents env df filters).totalCount = 0 ∨
        5 < (count_documents env df filters).totalCount →
      (count_documents env df filters).documentNames = none ∧
      (count_documents env df filters).firstResult = none) := by
  have hsub := dynamic_search_results_sub env df filters 10000 "modified desc"
  have hall : ∀ row ∈ (dynamic_search env df filters 10000 "modified desc").results,
      ((fun row =>
        match rowGet row "name" with
        | some nv => if bvalTruthy nv = true then some nv else none
        | none => none) row).isSome = true := by
    intro row hrow
    obtain ⟨s, hns, hne⟩ := hname row (hsub row hrow)
    simp only [hns]
    rw [if_pos (by simp [bvalTruthy, hne])]
    rfl
  have hlen : ((dynamic_search env df filters 10000 "modified desc").results.filterMap
      (fun row =>
        match rowGet row "name" with
        | some nv => if bvalTruthy nv = true then some nv else none
        | none => none)).length =
      (dynamic_search env df filters 10000 "modified desc").results.length := by
    apply filterMap_length_all_some
    intro a ha
    exact hall a ha
  have htot : (count_documents env df filters).totalCount =
      (dynamic_search env df filters 10000 "modified desc").count := by
    unfold count_documents
    rw [if_neg hfil]
    simp only []
    split_ifs <;> rfl
  refine ⟨htot, ?_, ?_⟩
  · intro h0 h5
    have h0' : 0 < (dynamic_search env df filters 10000 "modified desc").count :=
      htot ▸ h0
    have h5' : (dynamic_search env df filters 10000 "modified desc").count ≤ 5 :=
      htot ▸ h5
    have hres_ne : (dynamic_search env df filters 10000 "modified desc").results ≠ [] :=
      List.length_pos.mp h0'
    have hcond : (decide ((dynamic_search env df filters 10000 "modified desc").count > 0) &&
        decide ((dynamic_search env df filters 10000 "modified desc").count ≤ 5) &&
        !decide ((dynamic_search env df filters 10000 "modified desc").results = [])) =
        true := by
      simp [h0', h5', hres_ne]
    have hnames_ne : (dynamic_search env df filters 10000 "modified desc").results.filterMap
        (fun row =>
          match rowGet row "name" with
          | some nv => if bvalTruthy nv = true then some nv else none
          | none => none) ≠ [] := by
      intro hnil
      rw [hnil] at hlen
      exact hres_ne (List.length_eq_zero.mp hlen.symm)
    have hcd : count_documents env df filters =
        { status := "success",
          totalCount := (dynamic_search env df filters 10000 "modified desc").count,
          documentNames := some
            ((dynamic_search env df filters 10000 "modified desc").results.filterMap
              (fun row =>
                match rowGet row "name" with
                | some nv => if bvalTruthy nv = true then some nv else none
                | none => none)),
          firstResult :=
            if (dynamic_search env df filters 10000 "modified desc").results.length = 1 then
              (dynamic_search env df filters 10000 "modified desc").results.head?
            else none } := by
      unfold count_documents
      rw [if_neg hfil]
      simp only []
      rw [if_pos hcond, if_neg hnames_ne]
    refine ⟨(dynamic_search env df filters 10000 "modified desc").results.filterMap
      (fun row =>
        match rowGet row "name" with
        | some nv => if bvalTruthy nv = true then some nv else none
        | none => none), ?_, ?_, rfl, ?_, ?_⟩
    · rw [hcd]
    · rw [hcd]
      exact hlen
    · rw [hcd]
      simp only []
      by_cases hone : (dynamic_search env df filters 10000 "modified desc").results.length = 1
      · rw [if_pos hone]
        constructor
        · intro _
          exact hone
        · intro _
          rw [Option.isSome_iff_ne_none]
          intro hnone
          exact hres_ne (List.head?_eq_none_iff.mp hnone)
      · rw [if_neg hone]
        exact iff_of_false (by simp) (fun hc => hone hc)
    · intro h1
      rw [hcd] at h1 ⊢
      simp only [] at h1 ⊢
      have h1' : (dynamic_search env df filters 10000 "modified desc").results.length = 1 := h1
      rw [if_pos h1']
  · intro h
    have hcond : (decide ((dynamic_search env df filters 10000 "modified desc").count > 0) &&
        decide ((dynamic_search env df filters 10000 "modified desc").count ≤ 5) &&
        !decide ((dynamic_search env df filters 10000 "modified desc").results = [])) =
        false := by
      rcases h with h | h
      · have hz : (dynamic_search env df filters 10000 "modified desc").count = 0 :=
          htot ▸ h
        simp [hz]
      · have hgt : 5 < (dynamic_search env df filters 10000 "modified desc").count :=
          htot ▸ h
        have h5f : ¬ (dynamic_search env df filters 10000 "modified desc").count ≤ 5 := by
          omega
        simp [h5f]
    constructor <;>
      (unfold count_documents
       rw [if_neg hfil]
       simp only []
       rw [if_neg (by simp [hcond])])

/-- Witness for the C9 theorem at a concrete input: two records match
`territory = India` in the test table, so the response carries their two
names and no first record; all three table rows carry non-empty names. -/
theorem c9_small_count_names_witness :
    (count_documents envC ["creation", "modified"]
        [("territory", .scalar "India")]).totalCount =
      (dynamic_search envC ["creation", "modified"]
        [("territory", .scalar "India")] 10000 "modified desc").count ∧
    (count_documents envC ["creation", "modified"]
        [("territory", .scalar "India")]).documentNames =
      some [.s "CUST-0001", .s "CUST-0003"] ∧
    (count_documents envC ["creation", "modified"]
        [("territory", .scalar "India")]).firstResult = none := by
  have h := c9_small_count_names envC ["creation", "modified"]
    [("territory", .scalar "India")] (by decide)
    (by
      intro r hr
      fin_cases hr
      · exact ⟨"CUST-0001", by decide, by decide⟩
      · exact ⟨"CUST-0002", by decide, by decide⟩
      · exact ⟨"CUST-0003", by decide, by decide⟩)
  refine ⟨h.1, ?_, ?_⟩
  · obtain ⟨names, hdn, _, hnval, _, _⟩ := h.2.1 (by decide) (by decide)
    rw [hdn, hnval]
    decide
  · obtain ⟨names, _, _, _, hiff, _⟩ := h.2.1 (by decide) (by decide)
    cases hfr : (count_documents envC ["creation", "modified"]
        [("territory", .scalar "India")]).firstResult with
    | none => rfl
    | some row =>
      exfalso
      have : (count_documents envC ["creation", "modified"]
          [("territory", .scalar "India")]).totalCount = 1 := by
        apply hiff.mp
        rw [hfr]
        rfl
      rw [h.1] at this
      exact absurd this (by decide)

end EximBackend
